import Mathlib

/-!
Verification of the vox media engine (crates vox-media and vox-mls).

Shallow embedding of the Rust sources:
  * `src/crates/vox-media/src/quic.rs`  — media header, fragmentation,
    reassembly, pinned-certificate verification;
  * `src/crates/vox-media/src/state.rs` — session state machine, speaking
    detection, reconnect backoff;
  * `src/crates/vox-media/src/codec.rs` — Opus encoder wrapper;
  * `src/crates/vox-mls/src/provider.rs` and `lib.rs` — at-rest encryption
    and database import/export.

Bytes are modelled as `Nat` (values < 256), u32 values as `Nat` with
explicit `% 2^32` where Rust wrapping arithmetic occurs.
-/

namespace Vox

/-! ## Wire framing: `MediaHeader` (quic.rs lines 56-119) -/

/-- `HEADER_SIZE` in quic.rs. -/
def HEADER_SIZE : Nat := 22

/-- Flag bits (quic.rs lines 32-36). -/
def FLAG_KEYFRAME : Nat := 0x80
def FLAG_END_OF_FRAME : Nat := 0x40

/-- `PROTOCOL_VERSION` in quic.rs. -/
def PROTOCOL_VERSION : Nat := 1

/-- Media type / codec constants (quic.rs lines 19-29). -/
def MEDIA_TYPE_AUDIO : Nat := 0
def MEDIA_TYPE_VIDEO : Nat := 1
def CODEC_OPUS : Nat := 1
def CODEC_AV1 : Nat := 2

/-- The 22-byte media header (quic.rs `MediaHeader`).  Field values are
Nats standing for the Rust u8/u32 fields. -/
structure MediaHeader where
  version : Nat
  media_type : Nat
  codec_id : Nat
  flags : Nat
  room_id : Nat
  user_id : Nat
  sequence : Nat
  timestamp : Nat
  spatial_id : Nat
  temporal_id : Nat
  dtx : Bool
deriving Repr, DecidableEq

/-- A header is valid when every field fits the width of its Rust type
(u8 for the byte fields, u32 for the id/sequence/timestamp fields) and, as
the wire format requires, the spatial and temporal ids fit in 4 bits. -/
def MediaHeader.Valid (h : MediaHeader) : Prop :=
  h.version < 256 ∧ h.media_type < 256 ∧ h.codec_id < 256 ∧ h.flags < 256 ∧
  h.room_id < 2 ^ 32 ∧ h.user_id < 2 ^ 32 ∧ h.sequence < 2 ^ 32 ∧
  h.timestamp < 2 ^ 32 ∧ h.spatial_id < 16 ∧ h.temporal_id < 16

instance (h : MediaHeader) : Decidable h.Valid := by
  unfold MediaHeader.Valid; infer_instance

/-- Big-endian u32 serialization, as `u32::to_be_bytes`. -/
def be32 (n : Nat) : List Nat :=
  [n / 2 ^ 24 % 256, n / 2 ^ 16 % 256, n / 2 ^ 8 % 256, n % 256]

/-- `u32::from_be_bytes`. -/
def fromBe32 (b0 b1 b2 b3 : Nat) : Nat :=
  b0 * 2 ^ 24 + b1 * 2 ^ 16 + b2 * 2 ^ 8 + b3

/-- `MediaHeader::encode` (quic.rs lines 93-106).  Byte 20 is
`(spatial_id << 4) | (temporal_id & 0x0F)` in u8 arithmetic, i.e.
`Nat.lor (spatial_id * 16 % 256) (temporal_id % 16)`; byte 21 is
`0x80` when dtx else `0`. -/
def MediaHeader.encode (h : MediaHeader) : List Nat :=
  [h.version, h.media_type, h.codec_id, h.flags] ++
  be32 h.room_id ++ be32 h.user_id ++ be32 h.sequence ++ be32 h.timestamp ++
  [Nat.lor (h.spatial_id * 16 % 256) (h.temporal_id % 16),
   if h.dtx then 0x80 else 0]

/-- `MediaHeader::parse` (quic.rs lines 73-90).  Returns `none` when the
input is shorter than 22 bytes. -/
def MediaHeader.parse (data : List Nat) : Option MediaHeader :=
  if data.length < HEADER_SIZE then none
  else some {
    version := data.getD 0 0
    media_type := data.getD 1 0
    codec_id := data.getD 2 0
    flags := data.getD 3 0
    room_id := fromBe32 (data.getD 4 0) (data.getD 5 0) (data.getD 6 0) (data.getD 7 0)
    user_id := fromBe32 (data.getD 8 0) (data.getD 9 0) (data.getD 10 0) (data.getD 11 0)
    sequence := fromBe32 (data.getD 12 0) (data.getD 13 0) (data.getD 14 0) (data.getD 15 0)
    timestamp := fromBe32 (data.getD 16 0) (data.getD 17 0) (data.getD 18 0) (data.getD 19 0)
    spatial_id := data.getD 20 0 >>> 4
    temporal_id := Nat.land (data.getD 20 0) 0x0F
    dtx := Nat.land (data.getD 21 0) 0x80 ≠ 0 }

/-- `MediaHeader::is_keyframe` (quic.rs line 108). -/
def MediaHeader.isKeyframe (h : MediaHeader) : Bool :=
  Nat.land h.flags FLAG_KEYFRAME ≠ 0

/-- `MediaHeader::is_end_of_frame` (quic.rs line 112). -/
def MediaHeader.isEndOfFrame (h : MediaHeader) : Bool :=
  Nat.land h.flags FLAG_END_OF_FRAME ≠ 0

lemma be32_roundtrip {n : Nat} (h : n < 2 ^ 32) :
    fromBe32 (n / 2 ^ 24 % 256) (n / 2 ^ 16 % 256) (n / 2 ^ 8 % 256) (n % 256) = n := by
  unfold fromBe32
  omega

lemma byte20_fields : ∀ s < 16, ∀ t < 16,
    Nat.lor (s * 16 % 256) (t % 16) >>> 4 = s ∧
    Nat.land (Nat.lor (s * 16 % 256) (t % 16)) 0x0F = t := by
  decide

/-- Claim C6: encoding a valid header to the 22-byte layout and parsing it
back is the identity. -/
theorem header_roundtrip (h : MediaHeader) (hv : h.Valid) :
    MediaHeader.parse (MediaHeader.encode h) = some h := by
  obtain ⟨v, mt, ci, fl, ri, ui, sq, ts, sp, tp, dx⟩ := h
  obtain ⟨_, _, _, _, hr, hu, hs, ht, hsp, htp⟩ := hv
  dsimp only at hr hu hs ht hsp htp
  have hb := byte20_fields sp hsp tp htp
  cases dx <;>
  · simp only [MediaHeader.parse, MediaHeader.encode, be32, HEADER_SIZE,
      List.append_assoc, List.cons_append, List.nil_append, List.length_cons,
      List.length_nil, List.getD, List.get?_cons_zero, List.get?_cons_succ,
      Option.getD_some, Bool.false_eq_true, if_false, if_true]
    rw [if_neg (by omega)]
    simp only [Option.some.injEq, MediaHeader.mk.injEq]
    refine ⟨?_, ?_, ?_, ?_, ?_, ?_, ?_, ?_, ?_, ?_, ?_⟩ <;>
      first
        | trivial
        | exact hb.1
        | exact hb.2
        | (simp only [fromBe32]; omega)

/-- Witness for C6: the spec's scenario S1 header round-trips. -/
theorem header_roundtrip_witness :
    (MediaHeader.parse (MediaHeader.encode
      { version := 1, media_type := 1, codec_id := 2, flags := 0xC0,
        room_id := 0x11223344, user_id := 0x55667788,
        sequence := 0x0A0B0C0D, timestamp := 0x01020304,
        spatial_id := 2, temporal_id := 5, dtx := true }) = some
      { version := 1, media_type := 1, codec_id := 2, flags := 0xC0,
        room_id := 0x11223344, user_id := 0x55667788,
        sequence := 0x0A0B0C0D, timestamp := 0x01020304,
        spatial_id := 2, temporal_id := 5, dtx := true }) :=
  header_roundtrip _ (by decide)

/-! ## Video fragmentation (quic.rs lines 176-251) -/

/-- `MAX_FRAGMENT_PAYLOAD` (quic.rs line 176). -/
def MAX_FRAGMENT_PAYLOAD : Nat := 1178

/-- Modulus for u32 wrapping arithmetic (`u32::wrapping_add`). -/
def U32 : Nat := 2 ^ 32

/-- An outbound media frame: header plus payload (quic.rs `OutFrame`). -/
structure OutFrame where
  header : MediaHeader
  payload : List Nat
deriving Repr, DecidableEq

/-- `OutFrame::video` (quic.rs lines 180-213).  The flags are built with
`|=` from `FLAG_KEYFRAME` and `FLAG_END_OF_FRAME`. -/
def OutFrame.video (room_id user_id seq timestamp : Nat)
    (is_keyframe is_end_of_frame : Bool) (payload : List Nat) : OutFrame :=
  { header := {
      version := PROTOCOL_VERSION
      media_type := MEDIA_TYPE_VIDEO
      codec_id := CODEC_AV1
      flags := Nat.lor (if is_keyframe then FLAG_KEYFRAME else 0)
                        (if is_end_of_frame then FLAG_END_OF_FRAME else 0)
      room_id := room_id
      user_id := user_id
      sequence := seq
      timestamp := timestamp
      spatial_id := 0
      temporal_id := 0
      dtx := false }
    payload := payload }

/-- `OutFrame::audio` (quic.rs lines 129-146). -/
def OutFrame.audio (room_id user_id codec_id seq timestamp : Nat)
    (payload : List Nat) : OutFrame :=
  { header := {
      version := PROTOCOL_VERSION
      media_type := MEDIA_TYPE_AUDIO
      codec_id := codec_id
      flags := FLAG_END_OF_FRAME
      room_id := room_id
      user_id := user_id
      sequence := seq
      timestamp := timestamp
      spatial_id := 0
      temporal_id := 0
      dtx := false }
    payload := payload }

/-- Rust's `slice::chunks(M)`: split a list into consecutive chunks of at
most `M` elements (the last may be shorter).  Empty input gives no chunks. -/
def chunksOf (M : Nat) (l : List Nat) : List (List Nat) :=
  if hl : l = [] then []
  else if M = 0 then [l]
  else l.take M :: chunksOf M (l.drop M)
termination_by l.length
decreasing_by
  simp only [List.length_drop]
  have := List.length_pos.mpr hl
  omega

/-- The per-chunk loop body of `send_video_fragmented` (quic.rs lines
233-248): chunk `i` becomes a video frame carrying the current sequence
counter, which then advances with `u32::wrapping_add(1)`.  Returns the
emitted datagrams and the final sequence counter. -/
def fragLoop (room_id user_id timestamp : Nat) (is_keyframe : Bool)
    (last_idx : Nat) : Nat → Nat → List (List Nat) → List OutFrame × Nat
  | seq, _, [] => ([], seq)
  | seq, i, c :: cs =>
      let frame := OutFrame.video room_id user_id seq timestamp
        (is_keyframe && i == 0) (i == last_idx) c
      let rest := fragLoop room_id user_id timestamp is_keyframe last_idx
        ((seq + 1) % U32) (i + 1) cs
      (frame :: rest.1, rest.2)

/-- `send_video_fragmented` (quic.rs lines 217-251), with the datagram
transmission modelled as collecting the emitted frames.  Returns the
datagrams in emission order and the caller's advanced sequence counter. -/
def sendVideoFragmented (room_id user_id start_seq timestamp : Nat)
    (is_keyframe : Bool) (data : List Nat) : List OutFrame × Nat :=
  let chunks := if data = [] then [[]] else chunksOf MAX_FRAGMENT_PAYLOAD data
  let last_idx := chunks.length - 1
  fragLoop room_id user_id timestamp is_keyframe last_idx start_seq 0 chunks

lemma chunksOf_flatten (M : Nat) (l : List Nat) : (chunksOf M l).flatten = l := by
  have key : ∀ n (l : List Nat), l.length = n → (chunksOf M l).flatten = l := by
    intro n
    induction n using Nat.strong_induction_on with
    | _ n ih =>
      intro l hn
      rw [chunksOf]
      by_cases hl : l = []
      · simp [hl]
      · by_cases hM : M = 0
        · simp [hl, hM]
        · simp only [hl, hM, dif_neg, if_neg, not_false_iff, List.flatten_cons]
          have hpos : 0 < l.length := List.length_pos.mpr hl
          rw [ih (l.drop M).length (by simp [List.length_drop]; omega) _ rfl]
          exact List.take_append_drop M l
  exact key l.length l rfl

lemma chunksOf_1178_length (l : List Nat) (hl : l ≠ []) :
    (chunksOf 1178 l).length = (l.length + 1177) / 1178 := by
  have key : ∀ n (l : List Nat), l ≠ [] → l.length = n →
      (chunksOf 1178 l).length = (l.length + 1177) / 1178 := by
    intro n
    induction n using Nat.strong_induction_on with
    | _ n ih =>
      intro l hl hn
      rw [chunksOf]
      simp only [hl, dif_neg, if_neg, not_false_iff, List.length_cons,
        OfNat.ofNat_ne_zero]
      have hpos : 0 < l.length := List.length_pos.mpr hl
      by_cases hle : l.length ≤ 1178
      · have hdrop : l.drop 1178 = [] := List.drop_eq_nil_of_le hle
        rw [hdrop, chunksOf]
        simp only [dif_pos, List.length_nil]
        omega
      · have hdrop : (l.drop 1178) ≠ [] := by
          intro h
          have := List.drop_eq_nil_iff_le.mp h
          omega
        rw [ih (l.drop 1178).length (by simp [List.length_drop]; omega) _ hdrop rfl]
        simp only [List.length_drop]
        omega
  exact key l.length l hl rfl

lemma fragLoop_length (r u t : Nat) (kf : Bool) (last : Nat) :
    ∀ (cs : List (List Nat)) (seq i : Nat),
      (fragLoop r u t kf last seq i cs).1.length = cs.length := by
  intro cs
  induction cs with
  | nil => intro seq i; rfl
  | cons c cs ih => intro seq i; simp [fragLoop, ih]

lemma fragLoop_snd (r u t : Nat) (kf : Bool) (last : Nat) :
    ∀ (cs : List (List Nat)) (seq i : Nat), seq < U32 →
      (fragLoop r u t kf last seq i cs).2 = (seq + cs.length) % U32 := by
  intro cs
  induction cs with
  | nil =>
      intro seq i hs
      simp [fragLoop, Nat.mod_eq_of_lt hs]
  | cons c cs ih =>
      intro seq i hs
      simp only [fragLoop, List.length_cons]
      rw [ih _ _ (Nat.mod_lt _ (by simp [U32]))]
      rw [Nat.mod_add_mod]
      congr 1
      omega

lemma fragLoop_payloads (r u t : Nat) (kf : Bool) (last : Nat) :
    ∀ (cs : List (List Nat)) (seq i : Nat),
      (fragLoop r u t kf last seq i cs).1.map OutFrame.payload = cs := by
  intro cs
  induction cs with
  | nil => intro seq i; rfl
  | cons c cs ih => intro seq i; simp [fragLoop, OutFrame.video, ih]

lemma fragLoop_timestamp (r u t : Nat) (kf : Bool) (last : Nat) :
    ∀ (cs : List (List Nat)) (seq i : Nat),
      ∀ f ∈ (fragLoop r u t kf last seq i cs).1, f.header.timestamp = t := by
  intro cs
  induction cs with
  | nil => intro seq i f hf; simp [fragLoop] at hf
  | cons c cs ih =>
      intro seq i f hf
      simp only [fragLoop, List.mem_cons] at hf
      rcases hf with hf | hf
      · subst hf; rfl
      · exact ih _ _ f hf

lemma fragLoop_get? (r u t : Nat) (kf : Bool) (last : Nat) :
    ∀ (cs : List (List Nat)) (seq i j : Nat), seq < U32 →
      (fragLoop r u t kf last seq i cs).1.get? j =
        (cs.get? j).map (fun c => OutFrame.video r u ((seq + j) % U32) t
          (kf && (i + j) == 0) ((i + j) == last) c) := by
  intro cs
  induction cs with
  | nil => intro seq i j _; simp [fragLoop]
  | cons c cs ih =>
      intro seq i j hs
      cases j with
      | zero =>
          simp [fragLoop, Nat.mod_eq_of_lt hs]
      | succ j =>
          simp only [fragLoop, List.get?_cons_succ]
          rw [ih _ _ _ (Nat.mod_lt _ (by simp [U32]))]
          rw [Nat.mod_add_mod]
          have h1 : seq + 1 + j = seq + (j + 1) := by omega
          have h2 : i + 1 + j = i + (j + 1) := by omega
          rw [h1, h2]

lemma video_flag_bits (r u s t : Nat) (kf eof : Bool) (c : List Nat) :
    (OutFrame.video r u s t kf eof c).header.isKeyframe = kf ∧
    (OutFrame.video r u s t kf eof c).header.isEndOfFrame = eof := by
  cases kf <;> cases eof <;>
    simp [OutFrame.video, MediaHeader.isKeyframe, MediaHeader.isEndOfFrame,
      FLAG_KEYFRAME, FLAG_END_OF_FRAME] <;> decide

/-- Claim C2: for payload `P` and starting sequence `s < 2^32`,
`send_video_fragmented` emits exactly `ceil(max(len P, 1) / 1178)` datagrams;
the END_OF_FRAME flag is carried exactly by the last one; KEYFRAME is set on
chunk `i` iff the frame is a keyframe and `i = 0`; all chunks share the
timestamp; the sequence counter advances by the chunk count modulo `2^32`;
and the payloads concatenate to `P`. -/
theorem send_video_fragmented_spec (room user s ts : Nat) (kf : Bool)
    (data : List Nat) (hs : s < U32) :
    (sendVideoFragmented room user s ts kf data).1.length
        = (max data.length 1 + 1177) / 1178 ∧
    (sendVideoFragmented room user s ts kf data).2
        = (s + (max data.length 1 + 1177) / 1178) % U32 ∧
    ((sendVideoFragmented room user s ts kf data).1.map OutFrame.payload).flatten
        = data ∧
    (∀ f ∈ (sendVideoFragmented room user s ts kf data).1,
        f.header.timestamp = ts) ∧
    (∀ i, ∀ f, (sendVideoFragmented room user s ts kf data).1.get? i = some f →
        (f.header.isEndOfFrame = true ↔
            i = (max data.length 1 + 1177) / 1178 - 1) ∧
        (f.header.isKeyframe = true ↔ (kf = true ∧ i = 0))) := by
  have hn : (if data = [] then [[]] else chunksOf MAX_FRAGMENT_PAYLOAD data).length
      = (max data.length 1 + 1177) / 1178 := by
    by_cases hd : data = []
    · simp [hd]
    · have hpos : 0 < data.length := List.length_pos.mpr hd
      simp only [hd, if_neg, not_false_iff, MAX_FRAGMENT_PAYLOAD]
      rw [chunksOf_1178_length data hd]
      omega
  refine ⟨?_, ?_, ?_, ?_, ?_⟩
  · rw [sendVideoFragmented, fragLoop_length, hn]
  · rw [sendVideoFragmented, fragLoop_snd _ _ _ _ _ _ _ _ hs, hn]
  · rw [sendVideoFragmented, fragLoop_payloads]
    by_cases hd : data = []
    · simp [hd]
    · simp only [hd, if_neg, not_false_iff, MAX_FRAGMENT_PAYLOAD]
      exact chunksOf_flatten 1178 data
  · intro f hf
    exact fragLoop_timestamp _ _ _ _ _ _ _ _ f hf
  · intro i f hf
    rw [sendVideoFragmented, fragLoop_get? _ _ _ _ _ _ _ _ _ hs] at hf
    rcases ho : (if data = [] then [[]] else
        chunksOf MAX_FRAGMENT_PAYLOAD data).get? i with _ | c
    · rw [ho, Option.map_none'] at hf
      exact Option.noConfusion hf
    · rw [ho] at hf
      simp only [Option.map_some'] at hf
      obtain ⟨hkf, heof⟩ := video_flag_bits room user ((s + i) % U32) ts
        (kf && (0 + i) == 0) ((0 + i) == ((if data = [] then [[]] else
          chunksOf MAX_FRAGMENT_PAYLOAD data).length - 1)) c
      injection hf with hf
      subst hf
      constructor
      · rw [heof, hn]
        simp only [Nat.zero_add, beq_iff_eq]
      · rw [hkf]
        cases kf <;> simp

/-- Witness for C2: a 3-byte payload at starting sequence `2^32 - 1`
produces one datagram and the counter wraps to `0`. -/
theorem send_video_fragmented_spec_witness :
    (2 ^ 32 - 1 < U32) ∧
    ((sendVideoFragmented 7 9 (2 ^ 32 - 1) 5 true [1, 2, 3]).1.length
        = (max ([1, 2, 3] : List Nat).length 1 + 1177) / 1178 ∧
    (sendVideoFragmented 7 9 (2 ^ 32 - 1) 5 true [1, 2, 3]).2
        = (2 ^ 32 - 1 + (max ([1, 2, 3] : List Nat).length 1 + 1177) / 1178) % U32 ∧
    ((sendVideoFragmented 7 9 (2 ^ 32 - 1) 5 true [1, 2, 3]).1.map
        OutFrame.payload).flatten = [1, 2, 3] ∧
    (∀ f ∈ (sendVideoFragmented 7 9 (2 ^ 32 - 1) 5 true [1, 2, 3]).1,
        f.header.timestamp = 5) ∧
    (∀ i, ∀ f,
        (sendVideoFragmented 7 9 (2 ^ 32 - 1) 5 true [1, 2, 3]).1.get? i = some f →
        (f.header.isEndOfFrame = true ↔
            i = (max ([1, 2, 3] : List Nat).length 1 + 1177) / 1178 - 1) ∧
        (f.header.isKeyframe = true ↔ (true = true ∧ i = 0)))) :=
  ⟨by norm_num [U32],
   send_video_fragmented_spec 7 9 (2 ^ 32 - 1) 5 true [1, 2, 3]
     (by norm_num [U32])⟩

/-! ## Video reassembly (quic.rs lines 253-334) -/

/-- `ReassemblyKey` (quic.rs lines 254-258). -/
structure ReassemblyKey where
  user_id : Nat
  timestamp : Nat
deriving Repr, DecidableEq

/-- `PartialFrame` (quic.rs lines 260-266); `last_activity` is an instant
modelled as a `Nat`. -/
structure PartialFrame where
  fragments : List (Nat × List Nat)
  is_keyframe : Bool
  received_end : Bool
  last_activity : Nat
deriving Repr, DecidableEq

/-- `ReassembledFrame` (quic.rs lines 273-279). -/
structure ReassembledFrame where
  user_id : Nat
  timestamp : Nat
  is_keyframe : Bool
  data : List Nat
deriving Repr, DecidableEq

/-- The reassembler's `pending` HashMap, modelled as an association list
with at most one entry per key. -/
def VideoReassembler := List (ReassemblyKey × PartialFrame)

/-- HashMap lookup. -/
def rLookup (st : VideoReassembler) (k : ReassemblyKey) : Option PartialFrame :=
  (st.find? (fun e => e.1 == k)).map (·.2)

/-- HashMap insert-or-replace. -/
def rInsert : VideoReassembler → ReassemblyKey → PartialFrame → VideoReassembler
  | [], k, v => [(k, v)]
  | e :: es, k, v => if e.1 == k then (k, v) :: es else e :: rInsert es k v

/-- HashMap remove. -/
def rRemove (st : VideoReassembler) (k : ReassemblyKey) : VideoReassembler :=
  st.filter (fun e => !(e.1 == k))

/-- Rust's stable `sort_by_key(|(seq, _)| *seq)`, modelled as a stable
insertion sort on the first component. -/
def sortBySeq (l : List (Nat × List Nat)) : List (Nat × List Nat) :=
  List.insertionSort (fun a b => a.1 ≤ b.1) l

/-- `VideoReassembler::add_fragment` (quic.rs lines 290-327).  The current
instant is passed in as `now`.  The entry is created on demand, the
keyframe and end flags are latched, the `(sequence, payload)` pair is
appended, and when `received_end` holds the entry is removed, the
fragments sorted by sequence and concatenated. -/
def addFragment (now : Nat) (st : VideoReassembler) (header : MediaHeader)
    (payload : List Nat) : Option ReassembledFrame × VideoReassembler :=
  let key : ReassemblyKey := ⟨header.user_id, header.timestamp⟩
  let p0 := match rLookup st key with
    | some p => p
    | none => { fragments := [], is_keyframe := false, received_end := false,
                last_activity := now }
  let p1 : PartialFrame := {
    fragments := p0.fragments ++ [(header.sequence, payload)]
    is_keyframe := p0.is_keyframe || header.isKeyframe
    received_end := p0.received_end || header.isEndOfFrame
    last_activity := now }
  if p1.received_end then
    (some { user_id := key.user_id, timestamp := key.timestamp,
            is_keyframe := p1.is_keyframe,
            data := ((sortBySeq p1.fragments).map Prod.snd).flatten },
     rRemove st key)
  else (none, rInsert st key p1)

/-- Feed a list of datagrams to the reassembler in order, collecting each
call's result. -/
def feed (now : Nat) (st : VideoReassembler) :
    List OutFrame → List (Option ReassembledFrame) × VideoReassembler
  | [] => ([], st)
  | f :: fs =>
      let r := addFragment now st f.header f.payload
      let rest := feed now r.2 fs
      (r.1 :: rest.1, rest.2)

lemma video_isKeyframe (r u s t : Nat) (kf eof : Bool) (c : List Nat) :
    (OutFrame.video r u s t kf eof c).header.isKeyframe = kf :=
  (video_flag_bits r u s t kf eof c).1

lemma video_isEndOfFrame (r u s t : Nat) (kf eof : Bool) (c : List Nat) :
    (OutFrame.video r u s t kf eof c).header.isEndOfFrame = eof :=
  (video_flag_bits r u s t kf eof c).2

lemma video_user_id (r u s t : Nat) (kf eof : Bool) (c : List Nat) :
    (OutFrame.video r u s t kf eof c).header.user_id = u := rfl

lemma video_timestamp' (r u s t : Nat) (kf eof : Bool) (c : List Nat) :
    (OutFrame.video r u s t kf eof c).header.timestamp = t := rfl

lemma video_sequence (r u s t : Nat) (kf eof : Bool) (c : List Nat) :
    (OutFrame.video r u s t kf eof c).header.sequence = s := rfl

lemma video_payload (r u s t : Nat) (kf eof : Bool) (c : List Nat) :
    (OutFrame.video r u s t kf eof c).payload = c := rfl

/-- A 1179-byte payload: it fragments into a 1178-byte chunk and a 1-byte
chunk. -/
def cexPayload : List Nat := List.replicate 1178 7 ++ [8]

lemma cexPayload_length : cexPayload.length = 1179 := by
  rw [cexPayload, List.length_append, List.length_replicate]
  rfl

lemma cexPayload_ne_nil : cexPayload ≠ [] := by
  intro h
  have hl := cexPayload_length
  rw [h] at hl
  exact absurd hl (by norm_num)

lemma cexPayload_chunks :
    chunksOf 1178 cexPayload = [List.replicate 1178 7, [8]] := by
  have htake : cexPayload.take 1178 = List.replicate 1178 7 :=
    List.take_left' (List.length_replicate 1178 7)
  have hdrop : cexPayload.drop 1178 = [8] :=
    List.drop_left' (List.length_replicate 1178 7)
  rw [chunksOf]
  rw [dif_neg cexPayload_ne_nil, if_neg (by norm_num), htake, hdrop]
  rw [chunksOf]
  rw [dif_neg (by intro h; exact List.cons_ne_nil 8 [] h), if_neg (by norm_num)]
  rw [List.take_of_length_le (by norm_num), List.drop_of_length_le (by norm_num)]
  rw [chunksOf]
  rfl

/-- The two datagrams `cexPayload` fragments into. -/
lemma cexPayload_frames : (sendVideoFragmented 1 2 0 5 false cexPayload).1 =
    [OutFrame.video 1 2 0 5 false false (List.replicate 1178 7),
     OutFrame.video 1 2 1 5 false true [8]] := by
  simp only [sendVideoFragmented]
  rw [if_neg cexPayload_ne_nil]
  rw [show MAX_FRAGMENT_PAYLOAD = 1178 from rfl, cexPayload_chunks]
  rfl

/-- Counterexample to claim C1 as stated: the two fragments of
`cexPayload`, delivered with the END_OF_FRAME fragment first (a
permutation, all arrive, none duplicated), do not reassemble into
`cexPayload` — the reassembler completes as soon as END_OF_FRAME is seen
and releases a truncated frame. -/
theorem add_fragment_any_order_counterexample :
    (((feed 0 [] ((sendVideoFragmented 1 2 0 5 false cexPayload).1.reverse)).1.filterMap
        id).map ReassembledFrame.data) ≠ [cexPayload] := by
  rw [cexPayload_frames]
  decide

/-! ### Reassembly in order: helper lemmas -/

instance : IsTotal (Nat × List Nat) (fun a b => a.1 ≤ b.1) :=
  ⟨fun a b => Nat.le_total a.1 b.1⟩

instance : IsTrans (Nat × List Nat) (fun a b => a.1 ≤ b.1) :=
  ⟨fun _ _ _ h1 h2 => le_trans h1 h2⟩

instance : IsAntisymm (Nat × List Nat) (fun a b => a.1 < b.1) :=
  ⟨fun _ _ h1 h2 => absurd (lt_trans h1 h2) (lt_irrefl _)⟩

/-- A stable sort of any permutation of a list with strictly increasing
keys recovers that list. -/
lemma sortBySeq_eq_of_perm {l c : List (Nat × List Nat)} (hp : l.Perm c)
    (hc : c.Pairwise (fun a b => a.1 < b.1)) : sortBySeq l = c := by
  unfold sortBySeq
  have hperm2 : (List.insertionSort (fun a b => a.1 ≤ b.1) l).Perm c :=
    (List.perm_insertionSort (fun a b => a.1 ≤ b.1) l).trans hp
  have hsorted : List.Sorted (fun a b : Nat × List Nat => a.1 ≤ b.1)
      (List.insertionSort (fun a b => a.1 ≤ b.1) l) :=
    List.sorted_insertionSort _ l
  have hsort : (List.insertionSort (fun a b : Nat × List Nat => a.1 ≤ b.1) l).Pairwise
      (fun a b => a.1 ≤ b.1) := hsorted
  have hcnodup : (c.map Prod.fst).Nodup :=
    List.Pairwise.imp (fun h => ne_of_lt h) (List.pairwise_map.mpr hc)
  have hnodup : ((List.insertionSort (fun a b => a.1 ≤ b.1) l).map Prod.fst).Nodup :=
    ((hperm2.map Prod.fst).nodup_iff).mpr hcnodup
  have hne : (List.insertionSort (fun a b => a.1 ≤ b.1) l).Pairwise
      (fun a b => a.1 ≠ b.1) :=
    List.pairwise_map.mp hnodup
  have hlt : (List.insertionSort (fun a b => a.1 ≤ b.1) l).Pairwise
      (fun a b => a.1 < b.1) :=
    (hsort.and hne).imp (fun h => lt_of_le_of_ne h.1 h.2)
  exact List.eq_of_perm_of_sorted hperm2 hlt hc

/-- The `(sequence, payload)` pairs of a canonical fragment train: chunk
`j` carries sequence `s + j`. -/
def seqChunks (s : Nat) : List (List Nat) → List (Nat × List Nat)
  | [] => []
  | c :: cs => (s, c) :: seqChunks (s + 1) cs

lemma seqChunks_ge (cs : List (List Nat)) : ∀ (s : Nat),
    ∀ p ∈ seqChunks s cs, s ≤ p.1 := by
  induction cs with
  | nil => intro s p hp; simp [seqChunks] at hp
  | cons c cs ih =>
      intro s p hp
      simp only [seqChunks, List.mem_cons] at hp
      rcases hp with hp | hp
      · subst hp; exact le_refl _
      · exact le_trans (Nat.le_succ s) (ih (s + 1) p hp)

lemma seqChunks_pairwise (cs : List (List Nat)) : ∀ (s : Nat),
    (seqChunks s cs).Pairwise (fun a b => a.1 < b.1) := by
  induction cs with
  | nil => intro s; simp [seqChunks]
  | cons c cs ih =>
      intro s
      refine List.Pairwise.cons ?_ (ih (s + 1))
      intro p hp
      exact lt_of_lt_of_le (Nat.lt_succ_self s) (seqChunks_ge cs (s + 1) p hp)

lemma seqChunks_map_snd (cs : List (List Nat)) : ∀ (s : Nat),
    (seqChunks s cs).map Prod.snd = cs := by
  induction cs with
  | nil => intro s; rfl
  | cons c cs ih => intro s; simp [seqChunks, ih]

/-- The reassembly key carried by a datagram. -/
def keyOf (f : OutFrame) : ReassemblyKey :=
  ⟨f.header.user_id, f.header.timestamp⟩

/-- The `(sequence, payload)` pair appended by `add_fragment`. -/
def pairOf (f : OutFrame) : Nat × List Nat :=
  (f.header.sequence, f.payload)

/-- Without wrap-around, the fragment train carries sequences
`s, s+1, ...` in order. -/
lemma fragLoop_pairs (r u t : Nat) (kf : Bool) (last : Nat) :
    ∀ (cs : List (List Nat)) (seq i : Nat), seq + cs.length ≤ U32 →
      ((fragLoop r u t kf last seq i cs).1).map pairOf = seqChunks seq cs := by
  intro cs
  induction cs with
  | nil => intro seq i _; rfl
  | cons c cs ih =>
      intro seq i hseq
      simp only [fragLoop, List.map_cons, seqChunks, List.length_cons] at hseq ⊢
      congr 1
      · cases cs with
        | nil => rfl
        | cons c' cs' =>
            have hmod : (seq + 1) % U32 = seq + 1 := by
              apply Nat.mod_eq_of_lt
              simp only [List.length_cons] at hseq
              omega
            rw [hmod] at *
            exact ih (seq + 1) (i + 1) (by simp only [List.length_cons] at hseq ⊢; omega)

lemma fragLoop_tail_no_kf (r u t : Nat) (kf : Bool) (last : Nat) :
    ∀ (cs : List (List Nat)) (seq i : Nat), 1 ≤ i →
      ∀ f ∈ (fragLoop r u t kf last seq i cs).1, f.header.isKeyframe = false := by
  intro cs
  induction cs with
  | nil => intro seq i _ f hf; simp [fragLoop] at hf
  | cons c cs ih =>
      intro seq i hi f hf
      simp only [fragLoop, List.mem_cons] at hf
      rcases hf with hf | hf
      · subst hf
        rw [video_isKeyframe]
        have : (i == 0) = false := by
          simp only [beq_eq_false_iff_ne, ne_eq]
          omega
        rw [this, Bool.and_false]
      · exact ih _ (i + 1) (by omega) f hf

/-- The fragment train carries the KEYFRAME flag iff the frame is a
keyframe (only chunk 0 can carry it). -/
lemma fragLoop_any_kf' (r u t : Nat) (kf : Bool) (last : Nat)
    (c : List Nat) (cs : List (List Nat)) (seq : Nat) :
    ((fragLoop r u t kf last seq 0 (c :: cs)).1).any
      (fun f => f.header.isKeyframe) = kf := by
  simp only [fragLoop, List.any_cons, video_isKeyframe]
  have htail : ((fragLoop r u t kf last ((seq + 1) % U32) 1 cs).1).any
      (fun f => f.header.isKeyframe) = false := by
    rw [List.any_eq_false]
    intro f hf
    simp only [Bool.not_eq_true]
    exact fragLoop_tail_no_kf r u t kf last cs _ 1 (le_refl 1) f hf
  rw [htail]
  simp

lemma fragLoop_any_kf (r u t : Nat) (kf : Bool) (last : Nat)
    (cs : List (List Nat)) (hcs : cs ≠ []) (seq : Nat) :
    ((fragLoop r u t kf last seq 0 cs).1).any
      (fun f => f.header.isKeyframe) = kf := by
  cases cs with
  | nil => exact absurd rfl hcs
  | cons c cs => exact fragLoop_any_kf' r u t kf last c cs seq

/-- Results of feeding a concatenation: the second batch starts from the
state the first one leaves. -/
lemma feed_append (now : Nat) :
    ∀ (l1 l2 : List OutFrame) (st : VideoReassembler),
      feed now st (l1 ++ l2) =
        ((feed now st l1).1 ++ (feed now (feed now st l1).2 l2).1,
         (feed now (feed now st l1).2 l2).2) := by
  intro l1
  induction l1 with
  | nil => intro l2 st; rfl
  | cons f fs ih =>
      intro l2 st
      simp only [List.cons_append, feed, List.append_eq, ih]

lemma perm_any_eq {α : Type} {l₁ l₂ : List α} (h : l₁.Perm l₂) (p : α → Bool) :
    l₁.any p = l₂.any p := by
  cases hb : l₂.any p
  · rw [List.any_eq_false] at *
    intro x hx
    exact hb x (h.mem_iff.mp hx)
  · rw [List.any_eq_true] at *
    obtain ⟨x, hx, hpx⟩ := hb
    exact ⟨x, h.mem_iff.mpr hx, hpx⟩

/-- Feeding fragments of one key, none carrying END_OF_FRAME, onto an open
entry: every call returns `none` and the entry accumulates the
`(sequence, payload)` pairs in arrival order, latching the keyframe flag. -/
lemma feed_no_end (now : Nat) (key : ReassemblyKey) :
    ∀ (l : List OutFrame) (acc : PartialFrame),
      acc.received_end = false →
      acc.last_activity = now →
      (∀ f ∈ l, keyOf f = key ∧ f.header.isEndOfFrame = false) →
      feed now [(key, acc)] l =
        (List.replicate l.length none,
         [(key, { fragments := acc.fragments ++ l.map pairOf,
                  is_keyframe := acc.is_keyframe ||
                    l.any (fun f => f.header.isKeyframe),
                  received_end := false,
                  last_activity := now })]) := by
  intro l
  induction l with
  | nil =>
      intro acc hre hla _
      obtain ⟨fr, ikf, re, la⟩ := acc
      dsimp only at hre hla
      subst hre hla
      simp [feed]
  | cons f fs ih =>
      intro acc hre hla hall
      obtain ⟨hkey, heof⟩ := hall f (List.mem_cons_self f fs)
      have htail := fun g hg => hall g (List.mem_cons_of_mem f hg)
      have hkey' : (⟨f.header.user_id, f.header.timestamp⟩ : ReassemblyKey) = key :=
        hkey
      have hlook : rLookup [(key, acc)] key = some acc := by
        rw [rLookup, List.find?_cons_of_pos _ (by simp)]
        rfl
      simp only [feed, addFragment, hkey', hlook]
      simp only [hre, heof, Bool.or_false, Bool.false_eq_true, if_false,
        rInsert, beq_self_eq_true, if_true]
      rw [ih _ rfl rfl htail]
      simp [List.replicate_succ, Bool.or_assoc, pairOf]

/-- Claim C1 (amended): fragments of one payload delivered in any order in
which the END_OF_FRAME fragment arrives last, with no duplicates and no
sequence wrap-around, produce `none` on every call except the last, which
completes exactly one frame carrying the payload and the keyframe flag,
and the reassembler entry is removed. -/
theorem add_fragment_reassembles
    (room user s ts now : Nat) (kf : Bool) (P : List Nat) (pre : List OutFrame)
    (hs : s + (max P.length 1 + 1177) / 1178 ≤ U32)
    (hne : (sendVideoFragmented room user s ts kf P).1 ≠ [])
    (hperm : pre.Perm (sendVideoFragmented room user s ts kf P).1.dropLast) :
    feed now [] (pre ++ [(sendVideoFragmented room user s ts kf P).1.getLast hne]) =
      (List.replicate pre.length none ++
        [some { user_id := user, timestamp := ts, is_keyframe := kf, data := P }],
       []) := by
  have hchlen : (if P = [] then [[]] else chunksOf MAX_FRAGMENT_PAYLOAD P).length
      = (max P.length 1 + 1177) / 1178 := by
    by_cases hd : P = []
    · simp [hd]
    · have hpos : 0 < P.length := List.length_pos.mpr hd
      simp only [hd, if_neg, not_false_iff, MAX_FRAGMENT_PAYLOAD]
      rw [chunksOf_1178_length P hd]
      omega
  have hflat : (if P = [] then [[]] else chunksOf MAX_FRAGMENT_PAYLOAD P).flatten
      = P := by
    by_cases hd : P = []
    · simp [hd]
    · simp only [hd, if_neg, not_false_iff, MAX_FRAGMENT_PAYLOAD]
      exact chunksOf_flatten 1178 P
  generalize hC : (if P = [] then [[]] else chunksOf MAX_FRAGMENT_PAYLOAD P) = C
    at hchlen hflat
  have hF : (sendVideoFragmented room user s ts kf P).1
      = (fragLoop room user ts kf (C.length - 1) s 0 C).1 := by
    rw [← hC]
    rfl
  generalize hFL : (sendVideoFragmented room user s ts kf P).1 = FL at hne hperm hF ⊢
  subst hF
  have hCpos : 0 < C.length := by
    rw [hchlen]
    omega
  have hCne : C ≠ [] := by
    intro h
    rw [h] at hCpos
    simp at hCpos
  have hlen : (fragLoop room user ts kf (C.length - 1) s 0 C).1.length
      = C.length := fragLoop_length room user ts kf (C.length - 1) C s 0
  have hsU : s + C.length ≤ U32 := by
    rw [hchlen]
    exact hs
  have hslt : s < U32 := by
    have h1 := hsU
    rw [show U32 = 4294967296 from rfl] at h1 ⊢
    omega
  have hpairs : (fragLoop room user ts kf (C.length - 1) s 0 C).1.map pairOf
      = seqChunks s C :=
    fragLoop_pairs room user ts kf (C.length - 1) C s 0 hsU
  have hget : ∀ j, (fragLoop room user ts kf (C.length - 1) s 0 C).1.get? j
      = (C.get? j).map (fun c => OutFrame.video room user ((s + j) % U32) ts
          (kf && (0 + j) == 0) ((0 + j) == (C.length - 1)) c) :=
    fun j => fragLoop_get? room user ts kf (C.length - 1) C s 0 j hslt
  -- last fragment
  have hfl? : (fragLoop room user ts kf (C.length - 1) s 0 C).1.get? (C.length - 1)
      = some ((fragLoop room user ts kf (C.length - 1) s 0 C).1.getLast hne) := by
    have h0 := List.getLast?_eq_getLast
      (fragLoop room user ts kf (C.length - 1) s 0 C).1 hne
    rw [List.getLast?_eq_get?] at h0
    rw [hlen] at h0
    exact h0
  have hclast? : C.get? (C.length - 1) = some (C.get ⟨C.length - 1, by omega⟩) :=
    List.get?_eq_get (by omega)
  have hlastval : (fragLoop room user ts kf (C.length - 1) s 0 C).1.getLast hne
      = OutFrame.video room user ((s + (C.length - 1)) % U32) ts
          (kf && (0 + (C.length - 1)) == 0) true (C.get ⟨C.length - 1, by omega⟩) := by
    have h1 := hfl?
    rw [hget, hclast?, Option.map_some'] at h1
    injection h1 with h1
    rw [← h1]
    congr 1
    simp only [Nat.zero_add, beq_self_eq_true]
  have hkey_last : (⟨((fragLoop room user ts kf (C.length - 1) s 0 C).1.getLast
      hne).header.user_id, ((fragLoop room user ts kf (C.length - 1) s 0
      C).1.getLast hne).header.timestamp⟩ : ReassemblyKey) = ⟨user, ts⟩ := by
    rw [hlastval]
    rfl
  have heof_last : ((fragLoop room user ts kf (C.length - 1) s 0
      C).1.getLast hne).header.isEndOfFrame = true := by
    rw [hlastval, video_isEndOfFrame]
  -- facts about the earlier fragments
  have hpre_facts : ∀ f ∈ pre, keyOf f = (⟨user, ts⟩ : ReassemblyKey) ∧
      f.header.isEndOfFrame = false := by
    intro f hf
    have hmem : f ∈ (fragLoop room user ts kf (C.length - 1) s 0 C).1.dropLast :=
      hperm.mem_iff.mp hf
    rw [List.dropLast_eq_take] at hmem
    obtain ⟨j, hj⟩ := List.mem_iff_get?.mp hmem
    have hjlt : j < (fragLoop room user ts kf (C.length - 1) s 0 C).1.length - 1 := by
      obtain ⟨h, _⟩ := List.get?_eq_some.mp hj
      simp only [List.length_take] at h
      omega
    rw [List.get?_take hjlt, hget j] at hj
    rcases hc : C.get? j with _ | c
    · rw [hc, Option.map_none'] at hj
      exact Option.noConfusion hj
    · rw [hc, Option.map_some'] at hj
      injection hj with hj
      subst hj
      refine ⟨rfl, ?_⟩
      rw [video_isEndOfFrame]
      rw [beq_eq_false_iff_ne]
      rw [hlen] at hjlt
      omega
  -- the arrival order is a permutation of the train
  have harr : (pre ++ [(fragLoop room user ts kf (C.length - 1) s 0
      C).1.getLast hne]).Perm (fragLoop room user ts kf (C.length - 1) s 0 C).1 := by
    have hdl := List.dropLast_append_getLast hne
    refine (hperm.append_right _).trans ?_
    rw [hdl]
  have hanykf : (pre ++ [(fragLoop room user ts kf (C.length - 1) s 0
      C).1.getLast hne]).any (fun f => f.header.isKeyframe) = kf := by
    rw [perm_any_eq harr]
    exact fragLoop_any_kf room user ts kf (C.length - 1) C hCne s
  have hsorteq : sortBySeq ((pre ++ [(fragLoop room user ts kf (C.length - 1) s 0
      C).1.getLast hne]).map pairOf) = seqChunks s C :=
    sortBySeq_eq_of_perm (hpairs ▸ harr.map pairOf) (seqChunks_pairwise C s)
  have hdata : ((sortBySeq ((pre ++ [(fragLoop room user ts kf (C.length - 1) s 0
      C).1.getLast hne]).map pairOf)).map Prod.snd).flatten = P := by
    rw [hsorteq, seqChunks_map_snd, hflat]
  -- run the reassembler
  rw [hlastval] at hdata hanykf ⊢
  rcases pre with _ | ⟨f0, fs0⟩
  · -- only the END fragment
    simp only [List.nil_append, List.map_cons, List.map_nil, pairOf,
      video_sequence, video_payload] at hdata
    simp only [List.nil_append, List.any_cons, List.any_nil, video_isKeyframe,
      Bool.or_false] at hanykf
    simp only [List.nil_append]
    simp [feed, addFragment, rLookup, rRemove, video_user_id, video_timestamp',
      video_isKeyframe, video_isEndOfFrame, video_sequence, video_payload,
      pairOf, hanykf, hdata]
    constructor
    · intro hkf
      subst hkf
      simpa using hanykf
    · exact hdata
  · -- at least one earlier fragment
    obtain ⟨hk0, he0⟩ := hpre_facts f0 (List.mem_cons_self f0 fs0)
    have hk0' : (⟨f0.header.user_id, f0.header.timestamp⟩ : ReassemblyKey)
        = ⟨user, ts⟩ := hk0
    have htailf := fun g hg => hpre_facts g (List.mem_cons_of_mem f0 hg)
    simp only [List.cons_append]
    simp only [feed]
    simp only [addFragment, rLookup, List.find?_nil, Option.map_none', hk0',
      he0, Bool.or_false, Bool.false_eq_true, if_false, rInsert]
    rw [feed_append]
    rw [feed_no_end now ⟨user, ts⟩ fs0 _ rfl rfl htailf]
    simp [feed, addFragment, rLookup, rRemove, video_user_id, video_timestamp',
      video_isKeyframe, video_isEndOfFrame, video_sequence, video_payload,
      pairOf, List.replicate_succ]
    constructor
    · simp only [List.any_cons, List.any_append, List.any_nil, video_isKeyframe,
        Bool.or_false, Nat.zero_add] at hanykf
      exact hanykf
    · simp only [List.map_cons, List.map_append, List.map_nil, pairOf,
        video_sequence, video_payload, Nat.zero_add] at hdata
      exact hdata


/-- A three-byte payload fits in one chunk. -/
lemma w13_chunks : chunksOf 1178 [1, 2, 3] = [[1, 2, 3]] := by
  rw [chunksOf]
  rw [dif_neg (by intro h; exact List.cons_ne_nil 1 [2, 3] h), if_neg (by norm_num)]
  rw [List.take_of_length_le (by norm_num), List.drop_of_length_le (by norm_num)]
  rw [chunksOf]
  rfl

lemma w13_frames : (sendVideoFragmented 1 2 0 5 true [1, 2, 3]).1 =
    [OutFrame.video 1 2 0 5 true true [1, 2, 3]] := by
  simp only [sendVideoFragmented]
  rw [if_neg (by intro h; exact List.cons_ne_nil 1 [2, 3] h)]
  rw [show MAX_FRAGMENT_PAYLOAD = 1178 from rfl, w13_chunks]
  rfl

lemma w13_ne : (sendVideoFragmented 1 2 0 5 true [1, 2, 3]).1 ≠ [] := by
  rw [w13_frames]
  intro h
  exact List.cons_ne_nil _ _ h

/-- Witness for the amended C1: the single-fragment train of `[1, 2, 3]`
reassembles to one completed keyframe carrying `[1, 2, 3]`. -/
theorem add_fragment_reassembles_witness :
    (0 + (max ([1, 2, 3] : List Nat).length 1 + 1177) / 1178 ≤ U32) ∧
    feed 7 [] ([] ++ [(sendVideoFragmented 1 2 0 5 true [1, 2, 3]).1.getLast w13_ne]) =
      (List.replicate ([] : List OutFrame).length none ++
        [some { user_id := 2, timestamp := 5, is_keyframe := true,
                data := [1, 2, 3] }], []) :=
  ⟨by norm_num [U32],
   add_fragment_reassembles 1 2 0 5 7 true [1, 2, 3] [] (by norm_num [U32]) w13_ne
     (by rw [w13_frames]; exact List.Perm.refl _)⟩

/-! ## Session state machine (state.rs): events, reconnect backoff -/

/-- `MAX_RECONNECT_ATTEMPTS` (state.rs line 16). -/
def MAX_RECONNECT_ATTEMPTS : Nat := 5

/-- `MAX_BACKOFF_SECS` (state.rs line 18). -/
def MAX_BACKOFF_SECS : Nat := 30

/-- `MediaEvent` (lib.rs lines 42-49).  The speaking events are the ones
pushed by `update_speaking_state` in state.rs. -/
inductive MediaEvent where
  | connected
  | disconnected (reason : String)
  | connectFailed (reason : String)
  | reconnecting (attempt : Nat) (delay_secs : Nat)
  | audioError (msg : String)
  | videoError (msg : String)
  | speakingStart (user_id : Nat)
  | speakingStop (user_id : Nat)
deriving Repr, DecidableEq

/-- `ConnectParams` (state.rs lines 29-38). -/
structure ConnectParams where
  url : String
  token : String
  room_id : Nat
  user_id : Nat
  cert_der : Option (List Nat)
  idle_timeout_secs : Nat
  datagram_buffer_size : Nat
deriving Repr, DecidableEq

/-- The delay before a reconnection attempt:
`min(2u64.pow(attempt - 1), MAX_BACKOFF_SECS)` (state.rs line 211). -/
def backoffDelay (attempt : Nat) : Nat :=
  min (2 ^ (attempt - 1)) MAX_BACKOFF_SECS

/-- The `for attempt in 1..=MAX_RECONNECT_ATTEMPTS` loop of
`reconnect_with_backoff` (state.rs lines 210-243).  `succ attempt` tells
whether `establish_session` succeeds on that attempt; the returned flag is
whether a session was produced.  Events are collected in emission order. -/
def reconnectLoop (succ : Nat → Bool) : Nat → Nat → List MediaEvent × Bool
  | _, 0 =>
      ([MediaEvent.disconnected
          ("Reconnection failed after " ++ toString MAX_RECONNECT_ATTEMPTS
            ++ " attempts")], false)
  | attempt, r + 1 =>
      let ev := MediaEvent.reconnecting attempt (backoffDelay attempt)
      if succ attempt then ([ev, MediaEvent.connected], true)
      else
        let rest := reconnectLoop succ (attempt + 1) r
        (ev :: rest.1, rest.2)

/-- `reconnect_with_backoff` (state.rs lines 205-244). -/
def reconnectWithBackoff (succ : Nat → Bool) : List MediaEvent × Bool :=
  reconnectLoop succ 1 MAX_RECONNECT_ATTEMPTS

/-- The QUIC-read-error branch of `run_media_loop` (state.rs lines
412-426): with saved params, reconnect with backoff, clearing the saved
params when it fails; without saved params, emit `Disconnected`.  Returns
(events, saved params afterwards, whether a session is live again). -/
def onQuicReadError (params? : Option ConnectParams) (succ : Nat → Bool)
    (errMsg : String) : List MediaEvent × Option ConnectParams × Bool :=
  match params? with
  | some _ =>
      let r := reconnectWithBackoff succ
      if r.2 then (r.1, params?, true) else (r.1, none, false)
  | none => ([MediaEvent.disconnected errMsg], none, false)

lemma reconnectLoop_all_fail (succ : Nat → Bool) :
    ∀ (r a : Nat), (∀ j, a ≤ j → j < a + r → succ j = false) →
      reconnectLoop succ a r =
        ((List.range' a r).map
            (fun x => MediaEvent.reconnecting x (backoffDelay x)) ++
          [MediaEvent.disconnected "Reconnection failed after 5 attempts"],
         false) := by
  intro r
  induction r with
  | zero =>
      intro a _
      simp [reconnectLoop, MAX_RECONNECT_ATTEMPTS]
      rfl
  | succ r ih =>
      intro a hfail
      have ha : succ a = false := hfail a (le_refl a) (by omega)
      simp only [reconnectLoop, ha, Bool.false_eq_true, if_false]
      rw [ih (a + 1) (fun j h1 h2 => hfail j (by omega) (by omega))]
      simp [List.range']

lemma reconnectLoop_success (succ : Nat → Bool) :
    ∀ (r a k : Nat), a ≤ k → k < a + r → succ k = true →
      (∀ j, a ≤ j → j < k → succ j = false) →
      reconnectLoop succ a r =
        ((List.range' a (k - a + 1)).map
            (fun x => MediaEvent.reconnecting x (backoffDelay x)) ++
          [MediaEvent.connected], true) := by
  intro r
  induction r with
  | zero => intro a k h1 h2; omega
  | succ r ih =>
      intro a k hak hkr hk hfail
      by_cases hk_eq : k = a
      · subst hk_eq
        simp only [reconnectLoop, hk, if_true]
        simp [List.range']
      · have ha : succ a = false := hfail a (le_refl a) (by omega)
        simp only [reconnectLoop, ha, Bool.false_eq_true, if_false]
        rw [ih (a + 1) k (by omega) (by omega) hk
          (fun j h1 h2 => hfail j (by omega) h2)]
        have hr : List.range' a (k - a + 1) = a :: List.range' (a + 1) (k - (a + 1) + 1) := by
          have : k - a + 1 = (k - (a + 1) + 1) + 1 := by omega
          rw [this]
          simp [List.range']
        rw [hr]
        simp

/-- Claim C5: after a QUIC read error with saved connect params, the
supervisor attempts at most 5 reconnections with delays
`min(2^(attempt-1), 30)` — concretely 1, 2, 4, 8, 16 — emitting
`Reconnecting{attempt, delay}` before each; on the first successful
attempt it emits `Connected` and stops, keeping the saved params; after 5
failures it emits `Disconnected("Reconnection failed after 5 attempts")`
and clears the saved params. -/
theorem reconnect_backoff_spec (succ : Nat → Bool) (p : ConnectParams)
    (err : String) :
    ((List.range' 1 5).map backoffDelay = [1, 2, 4, 8, 16]) ∧
    (∀ k, 1 ≤ k → k ≤ 5 → succ k = true →
      (∀ j, j < k → 1 ≤ j → succ j = false) →
      onQuicReadError (some p) succ err =
        ((List.range' 1 k).map
            (fun a => MediaEvent.reconnecting a (backoffDelay a)) ++
          [MediaEvent.connected], some p, true)) ∧
    ((∀ j, j ≤ 5 → 1 ≤ j → succ j = false) →
      onQuicReadError (some p) succ err =
        ((List.range' 1 5).map
            (fun a => MediaEvent.reconnecting a (backoffDelay a)) ++
          [MediaEvent.disconnected "Reconnection failed after 5 attempts"],
         none, false)) := by
  refine ⟨by decide, ?_, ?_⟩
  · intro k h1 h5 hk hfail
    have hloop := reconnectLoop_success succ 5 1 k h1 (by omega) hk
      (fun j hj1 hj2 => hfail j hj2 hj1)
    simp only [onQuicReadError, reconnectWithBackoff, MAX_RECONNECT_ATTEMPTS,
      hloop]
    have : k - 1 + 1 = k := by omega
    rw [this]
    simp
  · intro hfail
    have hloop := reconnectLoop_all_fail succ 5 1
      (fun j hj1 hj2 => hfail j (by omega) hj1)
    simp only [onQuicReadError, reconnectWithBackoff, MAX_RECONNECT_ATTEMPTS,
      hloop]
    simp

/-- A concrete set of connect parameters for witnesses. -/
def exampleParams : ConnectParams :=
  { url := "quic://sfu.example:4433", token := "tok", room_id := 1,
    user_id := 2, cert_der := none, idle_timeout_secs := 30,
    datagram_buffer_size := 65535 }

/-- Witness for C5: the spec's scenario S4 — three failures then success
on attempt 4 — emits Reconnecting{1,1}, {2,2}, {3,4}, {4,8}, Connected. -/
theorem reconnect_backoff_spec_witness :
    onQuicReadError (some exampleParams) (fun a => a == 4) "err" =
      ([MediaEvent.reconnecting 1 1, MediaEvent.reconnecting 2 2,
        MediaEvent.reconnecting 3 4, MediaEvent.reconnecting 4 8,
        MediaEvent.connected], some exampleParams, true) := by
  have h := (reconnect_backoff_spec (fun a => a == 4) exampleParams "err").2.1
    4 (by norm_num) (by norm_num) (by decide) (by decide)
  rw [h]
  rfl

/-! ## Speaking detection (state.rs lines 596-621) -/

/-- `SPEAKING_HOLDOFF` (state.rs line 26), in milliseconds. -/
def SPEAKING_HOLDOFF : Nat := 200

/-- `SpeakingState` (state.rs lines 61-64); the instant is in
milliseconds. -/
structure SpeakingState where
  speaking : Bool
  last_above_threshold : Nat
deriving Repr, DecidableEq

/-- The speaking-state HashMap, as an association list. -/
def SpeakingMap := List (Nat × SpeakingState)

def sLookup (m : SpeakingMap) (u : Nat) : Option SpeakingState :=
  (m.find? (fun e => e.1 == u)).map (·.2)

def sInsert : SpeakingMap → Nat → SpeakingState → SpeakingMap
  | [], u, st => [(u, st)]
  | e :: es, u, st => if e.1 == u then (u, st) :: es else e :: sInsert es u st

/-- The sum of squared samples of a PCM buffer. -/
def sumSq (pcm : List Int) : Nat :=
  (pcm.map (fun s => (s * s).toNat)).sum

/-- `normalized_rms >= SPEAKING_THRESHOLD` (state.rs lines 602-611) in
exact integer arithmetic: `sqrt(sumSq/len)/32767 >= 0.01` iff
`10^4 * sumSq >= 327.67^2 * 10^4 * len = 1073676289 * len`.  The source
computes this in f64; the comparison is modelled exactly over the
rationals. -/
def isAboveThreshold (pcm : List Int) : Bool :=
  decide (10000 * sumSq pcm ≥ 1073676289 * pcm.length)

/-- `update_speaking_state` (state.rs lines 598-621).  `now` is the
current instant in milliseconds; `now - x` is saturating, as
`Instant::duration_since` saturates to zero.  Returns the updated map and
the emitted events. -/
def updateSpeakingState (now : Nat) (m : SpeakingMap) (user_id : Nat)
    (pcm : List Int) : SpeakingMap × List MediaEvent :=
  if pcm = [] then (m, [])
  else
    let st0 := match sLookup m user_id with
      | some st => st
      | none => { speaking := false,
                  last_above_threshold := now - SPEAKING_HOLDOFF - 1 }
    if isAboveThreshold pcm then
      let st1 := { st0 with last_above_threshold := now }
      if st1.speaking then (sInsert m user_id st1, [])
      else (sInsert m user_id { st1 with speaking := true },
            [MediaEvent.speakingStart user_id])
    else if st0.speaking ∧ now - st0.last_above_threshold ≥ SPEAKING_HOLDOFF then
      (sInsert m user_id { st0 with speaking := false },
       [MediaEvent.speakingStop user_id])
    else (sInsert m user_id st0, [])

/-- Feed a sequence of (pcm, now) buffers through the speaking detector,
collecting events. -/
def runSpeaking (u : Nat) : SpeakingMap → List (List Int × Nat) →
    SpeakingMap × List MediaEvent
  | m, [] => (m, [])
  | m, (pcm, now) :: rest =>
      let r := updateSpeakingState now m u pcm
      let rr := runSpeaking u r.1 rest
      (rr.1, r.2 ++ rr.2)

/-- Whether the user is currently recorded as speaking. -/
def currentSpeaking (m : SpeakingMap) (u : Nat) : Bool :=
  ((sLookup m u).map (·.speaking)).getD false

lemma sLookup_sInsert_self (m : SpeakingMap) (u : Nat) (st : SpeakingState) :
    sLookup (sInsert m u st) u = some st := by
  induction m with
  | nil => simp [sInsert, sLookup, List.find?]
  | cons e es ih =>
      by_cases he : e.1 == u
      · simp [sInsert, he, sLookup, List.find?]
      · rw [sInsert, if_neg he]
        have he' : (e.1 == u) = false := by
          cases h : (e.1 == u) with
          | false => rfl
          | true => exact absurd h he
        show sLookup (e :: sInsert es u st) u = some st
        simp only [sLookup, List.find?, he']
        exact ih

lemma update_above_eq (now : Nat) (m : SpeakingMap) (u : Nat) (pcm : List Int)
    (hne : pcm ≠ []) (ha : isAboveThreshold pcm = true) :
    updateSpeakingState now m u pcm =
      (sInsert m u { speaking := true, last_above_threshold := now },
       if currentSpeaking m u then [] else [MediaEvent.speakingStart u]) := by
  rcases hl : sLookup m u with _ | ⟨sp, ta⟩
  · simp [updateSpeakingState, hne, hl, ha, currentSpeaking]
  · cases sp <;> simp [updateSpeakingState, hne, hl, ha, currentSpeaking]

lemma update_below_eq (now : Nat) (m : SpeakingMap) (u : Nat) (pcm : List Int)
    (st0 : SpeakingState) (hne : pcm ≠ []) (hb : isAboveThreshold pcm = false)
    (hl : sLookup m u = some st0) :
    updateSpeakingState now m u pcm =
      (if st0.speaking = true ∧
          SPEAKING_HOLDOFF ≤ now - st0.last_above_threshold then
        (sInsert m u { speaking := false,
                       last_above_threshold := st0.last_above_threshold },
         [MediaEvent.speakingStop u])
       else (sInsert m u st0, [])) := by
  rcases st0 with ⟨sp, ta⟩
  cases sp <;>
    by_cases hc : SPEAKING_HOLDOFF ≤ now - ta <;>
      simp [updateSpeakingState, hne, hl, hb, hc]

lemma run_above_speaking (u : Nat) :
    ∀ (l : List (List Int × Nat)) (m : SpeakingMap) (t : Nat),
      sLookup m u = some { speaking := true, last_above_threshold := t } →
      (∀ p ∈ l, p.1 ≠ [] ∧ isAboveThreshold p.1 = true) →
      (runSpeaking u m l).2 = [] := by
  intro l
  induction l with
  | nil => intro m t _ _; rfl
  | cons p rest ih =>
      intro m t hl hall
      obtain ⟨hne, ha⟩ := hall p (List.mem_cons_self p rest)
      rcases p with ⟨pcm, now⟩
      simp only [runSpeaking]
      rw [update_above_eq now m u pcm hne ha]
      have hcur : currentSpeaking m u = true := by
        simp [currentSpeaking, hl]
      rw [hcur]
      simp only [if_true, List.nil_append]
      exact ih _ now (sLookup_sInsert_self m u _)
        (fun q hq => hall q (List.mem_cons_of_mem _ hq))

lemma run_below_not_speaking (u : Nat) :
    ∀ (l : List (List Int × Nat)) (m : SpeakingMap) (t : Nat),
      sLookup m u = some { speaking := false, last_above_threshold := t } →
      (∀ p ∈ l, p.1 ≠ [] ∧ isAboveThreshold p.1 = false) →
      (runSpeaking u m l).2 = [] := by
  intro l
  induction l with
  | nil => intro m t _ _; rfl
  | cons p rest ih =>
      intro m t hl hall
      obtain ⟨hne, hb⟩ := hall p (List.mem_cons_self p rest)
      rcases p with ⟨pcm, now⟩
      simp only [runSpeaking]
      rw [update_below_eq now m u pcm _ hne hb hl]
      simp only [Bool.false_eq_true, false_and, if_false, List.nil_append]
      exact ih _ t (sLookup_sInsert_self m u _)
        (fun q hq => hall q (List.mem_cons_of_mem _ hq))

lemma run_below_speaking (u : Nat) :
    ∀ (l : List (List Int × Nat)) (m : SpeakingMap) (t : Nat),
      sLookup m u = some { speaking := true, last_above_threshold := t } →
      (∀ p ∈ l, p.1 ≠ [] ∧ isAboveThreshold p.1 = false) →
      (runSpeaking u m l).2 =
        (if l.any (fun p => SPEAKING_HOLDOFF ≤ p.2 - t) then
          [MediaEvent.speakingStop u] else []) := by
  intro l
  induction l with
  | nil => intro m t _ _; rfl
  | cons p rest ih =>
      intro m t hl hall
      obtain ⟨hne, hb⟩ := hall p (List.mem_cons_self p rest)
      rcases p with ⟨pcm, now⟩
      simp only [runSpeaking]
      rw [update_below_eq now m u pcm _ hne hb hl]
      by_cases hc : SPEAKING_HOLDOFF ≤ now - t
      · rw [if_pos (by exact ⟨rfl, hc⟩)]
        simp only []
        rw [run_below_not_speaking u rest _ t (sLookup_sInsert_self m u _)
          (fun q hq => hall q (List.mem_cons_of_mem _ hq))]
        have : ((pcm, now) :: rest).any (fun p => SPEAKING_HOLDOFF ≤ p.2 - t)
            = true := by
          simp only [List.any_cons, Bool.or_eq_true, decide_eq_true_eq]
          exact Or.inl hc
        rw [this]
        rfl
      · rw [if_neg (by intro h; exact hc h.2)]
        simp only []
        rw [ih _ t (sLookup_sInsert_self m u _)
          (fun q hq => hall q (List.mem_cons_of_mem _ hq))]
        have : ((pcm, now) :: rest).any (fun p => SPEAKING_HOLDOFF ≤ p.2 - t)
            = rest.any (fun p => SPEAKING_HOLDOFF ≤ p.2 - t) := by
          simp only [List.any_cons, Bool.or_eq_true, decide_eq_true_eq]
          simp [hc]
        rw [this]
        simp

/-- Claim C7: the hysteresis rule of speaking detection.  (a) An
above-threshold buffer records `last_above_threshold := now`, sets
speaking, and emits SpeakingStart exactly on a false-to-true transition;
(b) a below-threshold buffer emits SpeakingStop iff the user is speaking
and at least 200 ms have elapsed since `last_above_threshold`, clearing
the flag; (c) a continuous above-threshold burst from a non-speaking
state emits exactly one SpeakingStart; (d) a continuous below-threshold
run from a speaking state emits SpeakingStop exactly once, and only when
some buffer arrives at least 200 ms after `last_above_threshold`. -/
theorem speaking_hysteresis_spec (u now t : Nat) (m : SpeakingMap)
    (pcm : List Int) (l : List (List Int × Nat)) :
    (pcm ≠ [] → isAboveThreshold pcm = true →
      sLookup (updateSpeakingState now m u pcm).1 u =
        some { speaking := true, last_above_threshold := now } ∧
      (updateSpeakingState now m u pcm).2 =
        (if currentSpeaking m u then [] else [MediaEvent.speakingStart u])) ∧
    (pcm ≠ [] → isAboveThreshold pcm = false →
      sLookup m u = some { speaking := true, last_above_threshold := t } →
      (updateSpeakingState now m u pcm).2 =
        (if SPEAKING_HOLDOFF ≤ now - t then [MediaEvent.speakingStop u]
         else []) ∧
      sLookup (updateSpeakingState now m u pcm).1 u =
        some { speaking := ¬decide (SPEAKING_HOLDOFF ≤ now - t),
               last_above_threshold := t }) ∧
    (currentSpeaking m u = false → l ≠ [] →
      (∀ p ∈ l, p.1 ≠ [] ∧ isAboveThreshold p.1 = true) →
      (runSpeaking u m l).2 = [MediaEvent.speakingStart u]) ∧
    (sLookup m u = some { speaking := true, last_above_threshold := t } →
      (∀ p ∈ l, p.1 ≠ [] ∧ isAboveThreshold p.1 = false) →
      (runSpeaking u m l).2 =
        (if l.any (fun p => SPEAKING_HOLDOFF ≤ p.2 - t) then
          [MediaEvent.speakingStop u] else [])) := by
  refine ⟨?_, ?_, ?_, ?_⟩
  · intro hne ha
    rw [update_above_eq now m u pcm hne ha]
    exact ⟨sLookup_sInsert_self m u _, rfl⟩
  · intro hne hb hl
    rw [update_below_eq now m u pcm _ hne hb hl]
    by_cases hc : SPEAKING_HOLDOFF ≤ now - t
    · rw [if_pos (by exact ⟨rfl, hc⟩)]
      refine ⟨by rw [if_pos hc], ?_⟩
      rw [sLookup_sInsert_self m u _]
      simp [hc]
    · rw [if_neg (by intro h; exact hc h.2)]
      refine ⟨by rw [if_neg hc], ?_⟩
      rw [sLookup_sInsert_self m u _]
      simp [hc]
  · intro hcur hlne hall
    cases l with
    | nil => exact absurd rfl hlne
    | cons p rest =>
        obtain ⟨hne, ha⟩ := hall p (List.mem_cons_self p rest)
        rcases p with ⟨pcm0, n0⟩
        simp only [runSpeaking]
        rw [update_above_eq n0 m u pcm0 hne ha, hcur]
        simp only [Bool.false_eq_true, if_false]
        rw [run_above_speaking u rest _ n0 (sLookup_sInsert_self m u _)
          (fun q hq => hall q (List.mem_cons_of_mem _ hq))]
        rfl
  · intro hl hall
    exact run_below_speaking u l m t hl hall

/-- Witness for C7: a two-buffer burst of amplitude 400 (normalized RMS
about 0.0122) from an empty state emits exactly one SpeakingStart. -/
theorem speaking_hysteresis_spec_witness :
    currentSpeaking [] 7 = false ∧
    (runSpeaking 7 [] [([400], 0), ([400], 20)]).2 =
      [MediaEvent.speakingStart 7] :=
  ⟨by decide,
   (speaking_hysteresis_spec 7 0 0 [] [] [([400], 0), ([400], 20)]).2.2.1
     (by decide) (by decide) (by decide)⟩

/-! ## Session lifecycle (state.rs lines 40-58, 116-202, 257-304) -/

/-- `MediaCommand` (lib.rs lines 15-39).  f32 volumes are modelled as
rationals. -/
inductive MediaCommand where
  | connect (url token : String) (room_id user_id : Nat)
      (cert_der : Option (List Nat)) (idle_timeout_secs : Nat)
      (datagram_buffer_size : Nat)
  | disconnect
  | setMute (muted : Bool)
  | setDeaf (deafened : Bool)
  | setVideo (enabled : Bool)
  | setVideoConfig (width height fps bitrate_kbps : Nat)
  | setInputVolume (v : ℚ)
  | setOutputVolume (v : ℚ)
  | setNoiseGate (t : ℚ)
  | setUserVolume (user_id : Nat) (volume : ℚ)
deriving Repr, DecidableEq

/-- `VideoConfig` (state.rs lines 41-47) with its `Default` (lines
49-58). -/
structure VideoConfig where
  width : Nat
  height : Nat
  fps : Nat
  bitrate_kbps : Nat
deriving Repr, DecidableEq

def VideoConfig.default : VideoConfig :=
  { width := 640, height := 480, fps := 30, bitrate_kbps := 500 }

/-- The pure state of `ActiveSession` (state.rs lines 81-114).  Device
streams, channels, the QUIC connection and codec handles are resources
without observable pure state and are omitted; decoder maps are modelled
as `user_id → last_used` association lists. -/
structure ActiveSession where
  room_id : Nat
  user_id : Nat
  sequence : Nat
  timestamp : Nat
  audio_decoders : List (Nat × Nat)
  muted : Bool
  deafened : Bool
  input_volume : ℚ
  output_volume : ℚ
  noise_gate_threshold : ℚ
  user_volumes : List (Nat × ℚ)
  speaking_states : SpeakingMap
  video : Bool
  video_config : VideoConfig
  video_sequence : Nat
  video_timestamp : Nat
  video_decoders : List (Nat × Nat)
  video_reassembler : VideoReassembler

/-- The `ActiveSession` literal built by `establish_session` (state.rs
lines 172-201). -/
def establishSessionInit (room_id user_id : Nat) : ActiveSession :=
  { room_id := room_id
    user_id := user_id
    sequence := 0
    timestamp := 0
    audio_decoders := []
    muted := false
    deafened := false
    input_volume := 1
    output_volume := 1
    noise_gate_threshold := 0
    user_volumes := []
    speaking_states := []
    video := false
    video_config := VideoConfig.default
    video_sequence := 0
    video_timestamp := 0
    video_decoders := []
    video_reassembler := [] }

/-- Whether a command is `Connect`. -/
def MediaCommand.isConnect : MediaCommand → Bool
  | .connect _ _ _ _ _ _ _ => true
  | _ => false

/-- The Disconnected arm of `run_media_loop` (state.rs lines 259-304):
only `Connect` does anything; `Disconnect` and every `Set*` command fall
through to an empty match arm.  `connectOk` tells whether
`establish_session` succeeds; `errMsg` is its error string otherwise.
Returns (new session, saved params, emitted events). -/
def disconnectedStep (last_params : Option ConnectParams)
    (cmd : MediaCommand) (connectOk : Bool) (errMsg : String) :
    Option ActiveSession × Option ConnectParams × List MediaEvent :=
  match cmd with
  | .connect url token room_id user_id cert idle dgram =>
      if connectOk then
        (some (establishSessionInit room_id user_id),
         some { url := url, token := token, room_id := room_id,
                user_id := user_id, cert_der := cert,
                idle_timeout_secs := idle, datagram_buffer_size := dgram },
         [MediaEvent.connected])
      else (none, last_params, [MediaEvent.connectFailed errMsg])
  | _ => (none, last_params, [])

/-- Claim C10: a successful Connect creates a session in the fixed
default state (unmuted, undeafened, unit volumes, no noise gate, empty
per-user maps, zero counters, video off), and every non-Connect command
received while Disconnected is silently discarded — no session, no saved
params change, no events — so settings issued between sessions never
carry over. -/
theorem session_defaults_spec (lp : Option ConnectParams)
    (cmd : MediaCommand) (ok : Bool) (err : String)
    (url token : String) (room_id user_id : Nat)
    (cert : Option (List Nat)) (idle dgram : Nat) :
    (disconnectedStep lp
        (MediaCommand.connect url token room_id user_id cert idle dgram)
        true err).1 = some (establishSessionInit room_id user_id) ∧
    ((establishSessionInit room_id user_id).muted = false ∧
     (establishSessionInit room_id user_id).deafened = false ∧
     (establishSessionInit room_id user_id).input_volume = 1 ∧
     (establishSessionInit room_id user_id).output_volume = 1 ∧
     (establishSessionInit room_id user_id).noise_gate_threshold = 0 ∧
     (establishSessionInit room_id user_id).user_volumes = [] ∧
     (establishSessionInit room_id user_id).speaking_states = [] ∧
     (establishSessionInit room_id user_id).sequence = 0 ∧
     (establishSessionInit room_id user_id).timestamp = 0 ∧
     (establishSessionInit room_id user_id).video = false ∧
     (establishSessionInit room_id user_id).video_sequence = 0 ∧
     (establishSessionInit room_id user_id).video_timestamp = 0 ∧
     (establishSessionInit room_id user_id).audio_decoders = [] ∧
     (establishSessionInit room_id user_id).video_decoders = [] ∧
     (establishSessionInit room_id user_id).video_reassembler = []) ∧
    (cmd.isConnect = false →
      disconnectedStep lp cmd ok err = (none, lp, [])) := by
  refine ⟨rfl, ⟨rfl, rfl, rfl, rfl, rfl, rfl, rfl, rfl, rfl, rfl, rfl, rfl,
    rfl, rfl, rfl⟩, ?_⟩
  intro hnc
  cases cmd with
  | connect _ _ _ _ _ _ _ => simp [MediaCommand.isConnect] at hnc
  | _ => rfl

/-- Witness for C10: `SetMute true` while Disconnected is discarded. -/
theorem session_defaults_spec_witness :
    ((MediaCommand.setMute true).isConnect = false) ∧
    disconnectedStep (some exampleParams) (MediaCommand.setMute true)
        true "e" = (none, some exampleParams, []) :=
  ⟨rfl,
   (session_defaults_spec (some exampleParams) (MediaCommand.setMute true)
      true "e" "" "" 0 0 none 0 0).2.2 rfl⟩

/-! ## Pinned-certificate verification (quic.rs lines 336-421) -/

/-- The rustls certificate error raised by the pinned verifier. -/
inductive CertificateError where
  | applicationVerificationFailure
deriving Repr, DecidableEq

/-- The rustls error surface reachable from `PinnedCertVerifier`. -/
inductive RustlsError where
  | invalidCertificate (e : CertificateError)
deriving Repr, DecidableEq

/-- `rustls::client::danger::ServerCertVerified::assertion()`. -/
inductive ServerCertVerified where
  | assertion
deriving Repr, DecidableEq

/-- `rustls::client::danger::HandshakeSignatureValid`. -/
inductive HandshakeSignatureValid where
  | assertion
deriving Repr, DecidableEq

/-- `PinnedCertVerifier::verify_server_cert` (quic.rs lines 371-386):
accept iff the end-entity certificate DER equals the pinned DER byte for
byte; intermediates, server name, OCSP response and time are ignored. -/
def verifyServerCert (pinned end_entity : List Nat)
    (_intermediates : List (List Nat)) (_server_name : String)
    (_ocsp_response : List Nat) (_now : Nat) :
    Except RustlsError ServerCertVerified :=
  if end_entity = pinned then Except.ok ServerCertVerified.assertion
  else Except.error (RustlsError.invalidCertificate
    CertificateError.applicationVerificationFailure)

/-- `PinnedCertVerifier::verify_tls12_signature` (quic.rs lines 388-400):
delegate to the standard provider's verification function. -/
def verifyTls12Signature
    (provider : List Nat → List Nat → List Nat →
      Except RustlsError HandshakeSignatureValid)
    (message cert dss : List Nat) :
    Except RustlsError HandshakeSignatureValid :=
  provider message cert dss

/-- `PinnedCertVerifier::verify_tls13_signature` (quic.rs lines 402-414). -/
def verifyTls13Signature
    (provider : List Nat → List Nat → List Nat →
      Except RustlsError HandshakeSignatureValid)
    (message cert dss : List Nat) :
    Except RustlsError HandshakeSignatureValid :=
  provider message cert dss

/-- Claim C9: in pinned mode, `verify_server_cert` accepts the peer iff
the end-entity DER equals the pinned bytes exactly, returning
`InvalidCertificate` otherwise, and TLS 1.2/1.3 signature verification is
exactly the standard provider's. -/
theorem pinned_cert_spec (pinned ee : List Nat) (inter : List (List Nat))
    (sn : String) (ocsp : List Nat) (now : Nat) :
    (verifyServerCert pinned ee inter sn ocsp now =
        Except.ok ServerCertVerified.assertion ↔ ee = pinned) ∧
    (ee ≠ pinned → verifyServerCert pinned ee inter sn ocsp now =
        Except.error (RustlsError.invalidCertificate
          CertificateError.applicationVerificationFailure)) ∧
    (∀ provider m c d, verifyTls12Signature provider m c d = provider m c d) ∧
    (∀ provider m c d, verifyTls13Signature provider m c d = provider m c d) := by
  refine ⟨?_, ?_, fun _ _ _ _ => rfl, fun _ _ _ _ => rfl⟩
  · by_cases h : ee = pinned <;> simp [verifyServerCert, h]
  · intro h
    simp [verifyServerCert, h]

/-- Witness for C9: a certificate differing from the pin in one byte is
rejected with `InvalidCertificate`. -/
theorem pinned_cert_spec_witness :
    (([1, 2, 3] : List Nat) ≠ [1, 2, 4]) ∧
    verifyServerCert [1, 2, 4] [1, 2, 3] [] "sfu.example" [] 0 =
      Except.error (RustlsError.invalidCertificate
        CertificateError.applicationVerificationFailure) :=
  ⟨by decide,
   (pinned_cert_spec [1, 2, 4] [1, 2, 3] [] "sfu.example" [] 0).2.1 (by decide)⟩

/-! ## Opus encoder wrapper (codec.rs lines 12-33) -/

/-- `OpusEncoder::encode` (codec.rs lines 23-28).  The inner opus-library
call is a parameter: given the PCM frame and the 4000-byte output buffer,
it returns the number of bytes written and the written-into buffer.  The
wrapper truncates the buffer to the written length.  Note the result
type: only the compressed bytes — there is no DTX flag in the return
value. -/
def opusEncodeWrapper
    (inner : List Int → List Nat → Except String (Nat × List Nat))
    (pcm : List Int) : Except String (List Nat) :=
  match inner pcm (List.replicate 4000 0) with
  | Except.error e => Except.error e
  | Except.ok (len, buf) => Except.ok (buf.take len)

/-- A concrete opus-library stand-in that writes the two bytes `[7, 8]`
into the buffer and reports length 2. -/
def stubOpusInner : List Int → List Nat → Except String (Nat × List Nat) :=
  fun _ buf => Except.ok (2, 7 :: 8 :: buf.drop 2)

/-- Claim C3 (code evaluated at the failing input): the modelled
`OpusEncoder::encode` from codec.rs applied to a 960-sample zero frame
returns a bare byte string.  Its result carries no DTX flag, while
`send_audio_frame` in state.rs destructures the result as the pair
`(opus_data, is_dtx)` and sets the header's dtx bit from it — the claimed
pair return does not exist in codec.rs. -/
theorem opus_encode_returns_bytes_only :
    opusEncodeWrapper stubOpusInner (List.replicate 960 0) =
      Except.ok [7, 8] := rfl

/-! ## MLS state import (provider.rs lines 232-323, lib.rs lines
389-440) -/

/-- The `vox_identity` row (provider.rs lines 52-58). -/
structure IdentityRow where
  user_id : Nat
  device_id : String
  credential_with_key : String
  signature_key_pair : String
deriving Repr, DecidableEq

/-- The SQLite layer and serde parsing used by `import_db` /
`import_state`, as an abstract interface over a database-contents type
`DB`: deserializing backup bytes into an in-memory connection (covering
sqlite3_malloc, open_in_memory and deserialize failures), whether
`Connection::open` at a path succeeds (opening an existing database does
not change its contents), whether the Backup-API copy of given source
contents over given destination contents succeeds (an incomplete backup
is rolled back by `sqlite3_backup_finish`, so a failed copy leaves the
destination unchanged), the storage migrations and the CREATE TABLE IF
NOT EXISTS batch — both fallible and both transforming the contents of
the connection they run on (a failed step is modelled as leaving its
input contents; the theorems below use only that the pre-import contents
are already gone by then) — reading the identity row, and the serde_json
parses of its two columns. -/
structure SqliteModel (DB : Type) where
  deserialize : List Nat → Option DB
  openOk : String → Bool
  backupOk : DB → DB → Bool
  runMigrations : DB → Option DB
  createTables : DB → Option DB
  loadIdentity : DB → Option IdentityRow
  parseCredOk : String → Bool
  parseSigOk : String → Bool

/-- The engine state observable through C4: `file` is the contents of the
database file at `db_path`, which every connection opened at that path
reads — the provider's existing `Rc<Connection>` included — and the
in-memory identity (lib.rs fields `credential_with_key` and
`signature_keys`, held as their JSON sources). -/
structure MlsEngine (DB : Type) where
  db_path : String
  file : DB
  credential_with_key : Option String
  signature_keys : Option String
deriving DecidableEq

/-- `VoxProvider::import_db` (provider.rs lines 251-323): deserialize
into a temporary in-memory connection, open a fresh connection at the
original path, copy via the Backup API, run migrations, ensure the custom
tables, and only then swap the connection into `self`.  The Backup-API
copy of step 4 writes through the fresh connection at `db_path`, so it
replaces the contents of the very file the provider's existing connection
reads: from that point on `file` holds the restored image, and the still
fallible migration and create-tables steps that follow can fail with the
rewrite already done.  The final swap of `self.connection` (lines
318-321) exchanges one handle to that file for another and is therefore
not separately visible in the contents.  Returns the engine state after
the call and the call's result. -/
def importDb {DB : Type} (ctx : SqliteModel DB) (eng : MlsEngine DB)
    (data : List Nat) : MlsEngine DB × Except String Unit :=
  match ctx.deserialize data with
  | none => (eng, Except.error "Failed to deserialize backup")
  | some memDb =>
      if ctx.openOk eng.db_path then
        if ctx.backupOk memDb eng.file then
          match ctx.runMigrations memDb with
          | none => ({ eng with file := memDb },
                     Except.error "Failed to run migrations after restore")
          | some migrated =>
              match ctx.createTables migrated with
              | none => ({ eng with file := migrated },
                         Except.error "Failed to create custom tables after restore")
              | some final => ({ eng with file := final }, Except.ok ())
        else (eng, Except.error "Failed to restore backup")
      else (eng, Except.error "Failed to open new connection")

/-- `MlsEngine::import_state` (lib.rs lines 404-440): run `import_db`,
then re-load the identity from the (already restored) database and parse
its two columns, updating the in-memory identity on success. -/
def importState {DB : Type} (ctx : SqliteModel DB) (eng : MlsEngine DB)
    (data : List Nat) : MlsEngine DB × Except String Unit :=
  let r := importDb ctx eng data
  match r.2 with
  | Except.error e => (r.1, Except.error e)
  | Except.ok _ =>
      match ctx.loadIdentity r.1.file with
      | some row =>
          if ctx.parseCredOk row.credential_with_key then
            if ctx.parseSigOk row.signature_key_pair then
              ({ r.1 with credential_with_key := some row.credential_with_key,
                          signature_keys := some row.signature_key_pair },
               Except.ok ())
            else (r.1, Except.error "Failed to deserialize restored signature keys")
          else (r.1, Except.error "Failed to deserialize restored credential")
      | none => (r.1, Except.error "Backup does not contain identity data")

/-- `import_db` never touches the in-memory identity fields: they live in
lib.rs's `MlsEngine`, not in the provider. -/
theorem importDb_identity {DB : Type} (ctx : SqliteModel DB)
    (eng : MlsEngine DB) (data : List Nat) :
    (importDb ctx eng data).1.credential_with_key = eng.credential_with_key ∧
    (importDb ctx eng data).1.signature_keys = eng.signature_keys := by
  cases h1 : ctx.deserialize data with
  | none => simp [importDb, h1]
  | some memDb =>
    cases h2 : ctx.openOk eng.db_path with
    | false => simp [importDb, h1, h2]
    | true =>
      cases h3 : ctx.backupOk memDb eng.file with
      | false => simp [importDb, h1, h2, h3]
      | true =>
        cases h4 : ctx.runMigrations memDb with
        | none => simp [importDb, h1, h2, h3, h4]
        | some migrated =>
          cases h5 : ctx.createTables migrated with
          | none => simp [importDb, h1, h2, h3, h4, h5]
          | some final => simp [importDb, h1, h2, h3, h4, h5]

/-- A concrete SQLite model whose database contents are just the optional
identity row: byte string `[1]` deserializes to a valid database with no
identity row, everything else fails to deserialize. -/
def cexSqlite : SqliteModel (Option IdentityRow) :=
  { deserialize := fun data => if data = [1] then some none else none
    openOk := fun _ => true
    backupOk := fun _ _ => true
    runMigrations := fun d => some d
    createTables := fun d => some d
    loadIdentity := id
    parseCredOk := fun _ => true
    parseSigOk := fun _ => true }

def cexEngine : MlsEngine (Option IdentityRow) :=
  { db_path := "/mls.db"
    file := some { user_id := 1, device_id := "dev", credential_with_key := "cwk",
                   signature_key_pair := "sig" }
    credential_with_key := some "cwk"
    signature_keys := some "sig" }

/-- The same model with failing migrations, for the witness below. -/
def cexSqliteMigFail : SqliteModel (Option IdentityRow) :=
  { cexSqlite with runMigrations := fun _ => none }

/-- Counterexample to claim C4 as stated: importing a valid database
backup that lacks an identity row makes `import_state` return an error,
yet the contents of the database file at `db_path` have already been
replaced by the backup's — the call is not all-or-nothing. -/
theorem import_state_counterexample :
    (importState cexSqlite cexEngine [1]).2 =
      Except.error "Backup does not contain identity data" ∧
    (importState cexSqlite cexEngine [1]).1.file ≠ cexEngine.file := by
  constructor
  · rfl
  · intro h
    exact Option.noConfusion h

/-- Claim C4 (amended): `import_state` fails atomically only up to the
Backup-API copy — a failure to deserialize the backup bytes or to open
the fresh connection leaves the engine unchanged, and so does a failed
copy (rolled back by SQLite) — but once the copy has succeeded the
database file at `db_path`, which the provider's existing connection
reads, already holds the restored contents, so the still-fallible
migration and create-tables steps fail with the rewrite in place; the
identity is validated only after `import_db` has succeeded and swapped
the connection, so a restored database whose identity row is missing, or
whose credential or signature-key column does not parse, also yields an
error with the restored database in place; in every error case the
in-memory identity keeps its previous value. -/
theorem import_state_amended {DB : Type} (ctx : SqliteModel DB)
    (eng : MlsEngine DB) (data : List Nat) :
    (ctx.deserialize data = none →
      importState ctx eng data =
        (eng, Except.error "Failed to deserialize backup")) ∧
    (∀ memDb, ctx.deserialize data = some memDb →
      ctx.openOk eng.db_path = false →
      importState ctx eng data =
        (eng, Except.error "Failed to open new connection")) ∧
    (∀ memDb, ctx.deserialize data = some memDb →
      ctx.openOk eng.db_path = true →
      ctx.backupOk memDb eng.file = false →
      importState ctx eng data =
        (eng, Except.error "Failed to restore backup")) ∧
    (∀ memDb, ctx.deserialize data = some memDb →
      ctx.openOk eng.db_path = true →
      ctx.backupOk memDb eng.file = true →
      ctx.runMigrations memDb = none →
      importState ctx eng data =
        ({ eng with file := memDb },
         Except.error "Failed to run migrations after restore")) ∧
    (∀ memDb migrated, ctx.deserialize data = some memDb →
      ctx.openOk eng.db_path = true →
      ctx.backupOk memDb eng.file = true →
      ctx.runMigrations memDb = some migrated →
      ctx.createTables migrated = none →
      importState ctx eng data =
        ({ eng with file := migrated },
         Except.error "Failed to create custom tables after restore")) ∧
    ((importDb ctx eng data).2 = Except.ok () →
      ctx.loadIdentity (importDb ctx eng data).1.file = none →
      importState ctx eng data =
        ((importDb ctx eng data).1,
         Except.error "Backup does not contain identity data")) ∧
    (∀ row, (importDb ctx eng data).2 = Except.ok () →
      ctx.loadIdentity (importDb ctx eng data).1.file = some row →
      ctx.parseCredOk row.credential_with_key = false →
      importState ctx eng data =
        ((importDb ctx eng data).1,
         Except.error "Failed to deserialize restored credential")) ∧
    (∀ row, (importDb ctx eng data).2 = Except.ok () →
      ctx.loadIdentity (importDb ctx eng data).1.file = some row →
      ctx.parseCredOk row.credential_with_key = true →
      ctx.parseSigOk row.signature_key_pair = false →
      importState ctx eng data =
        ((importDb ctx eng data).1,
         Except.error "Failed to deserialize restored signature keys")) ∧
    ((importState ctx eng data).2 ≠ Except.ok () →
      (importState ctx eng data).1.credential_with_key =
        eng.credential_with_key ∧
      (importState ctx eng data).1.signature_keys = eng.signature_keys) := by
  refine ⟨?_, ?_, ?_, ?_, ?_, ?_, ?_, ?_, ?_⟩
  · intro h1
    have hdb : importDb ctx eng data =
        (eng, Except.error "Failed to deserialize backup") := by
      simp [importDb, h1]
    simp only [importState]
    rw [hdb]
  · intro memDb h1 h2
    have hdb : importDb ctx eng data =
        (eng, Except.error "Failed to open new connection") := by
      simp [importDb, h1, h2]
    simp only [importState]
    rw [hdb]
  · intro memDb h1 h2 h3
    have hdb : importDb ctx eng data =
        (eng, Except.error "Failed to restore backup") := by
      simp [importDb, h1, h2, h3]
    simp only [importState]
    rw [hdb]
  · intro memDb h1 h2 h3 h4
    have hdb : importDb ctx eng data =
        ({ eng with file := memDb },
         Except.error "Failed to run migrations after restore") := by
      simp [importDb, h1, h2, h3, h4]
    simp only [importState]
    rw [hdb]
  · intro memDb migrated h1 h2 h3 h4 h5
    have hdb : importDb ctx eng data =
        ({ eng with file := migrated },
         Except.error "Failed to create custom tables after restore") := by
      simp [importDb, h1, h2, h3, h4, h5]
    simp only [importState]
    rw [hdb]
  · intro hok hload
    simp only [importState]
    rw [hok]
    dsimp only
    rw [hload]
  · intro row hok hload hcred
    simp only [importState]
    rw [hok]
    dsimp only
    rw [hload]
    dsimp only
    rw [hcred]
    rfl
  · intro row hok hload hcred hsig
    simp only [importState]
    rw [hok]
    dsimp only
    rw [hload]
    dsimp only
    rw [hcred, hsig]
    rfl
  · intro hne
    have hid := importDb_identity ctx eng data
    cases hr : (importDb ctx eng data).2 with
    | error err =>
      have himp : importState ctx eng data =
          ((importDb ctx eng data).1, Except.error err) := by
        simp only [importState]
        rw [hr]
      rw [himp]
      exact hid
    | ok u =>
      cases u
      cases hload : ctx.loadIdentity (importDb ctx eng data).1.file with
      | none =>
        have himp : importState ctx eng data =
            ((importDb ctx eng data).1,
             Except.error "Backup does not contain identity data") := by
          simp only [importState]
          rw [hr]
          dsimp only
          rw [hload]
        rw [himp]
        exact hid
      | some row =>
        cases hcred : ctx.parseCredOk row.credential_with_key with
        | false =>
          have himp : importState ctx eng data =
              ((importDb ctx eng data).1,
               Except.error "Failed to deserialize restored credential") := by
            simp only [importState]
            rw [hr]
            dsimp only
            rw [hload]
            dsimp only
            rw [hcred]
            rfl
          rw [himp]
          exact hid
        | true =>
          cases hsig : ctx.parseSigOk row.signature_key_pair with
          | false =>
            have himp : importState ctx eng data =
                ((importDb ctx eng data).1,
                 Except.error "Failed to deserialize restored signature keys") := by
              simp only [importState]
              rw [hr]
              dsimp only
              rw [hload]
              dsimp only
              rw [hcred, hsig]
              rfl
            rw [himp]
            exact hid
          | true =>
            have himp : (importState ctx eng data).2 = Except.ok () := by
              simp only [importState]
              rw [hr]
              dsimp only
              rw [hload]
              dsimp only
              rw [hcred, hsig]
              rfl
            exact absurd himp hne

/-- Witness for the amended C4: under a model whose migrations fail, a
valid one-byte backup makes `import_state` return the migration error
with the database contents already replaced by the backup's image. -/
theorem import_state_amended_witness :
    (cexSqliteMigFail.deserialize [1] = some none ∧
     cexSqliteMigFail.runMigrations none = none) ∧
    importState cexSqliteMigFail cexEngine [1] =
      ({ cexEngine with file := none },
       Except.error "Failed to run migrations after restore") :=
  ⟨⟨rfl, rfl⟩,
   (import_state_amended cexSqliteMigFail cexEngine [1]).2.2.2.1
     none rfl rfl rfl rfl⟩

/-! ## At-rest encryption (provider.rs lines 17-18, 172-230) -/

/-- `ENC_PREFIX` (provider.rs line 18), as characters. -/
def ENC_PREFIX : List Char := ['e', 'n', 'c', ':', 'v', '1', ':']

/-- The external base64 engine and AES-256-GCM cipher used by the
provider, as an abstract interface: standard base64 encode/decode and
AEAD encrypt/decrypt (key, nonce, plaintext/ciphertext).  Strings are
modelled as character lists. -/
structure CryptoCtx where
  b64encode : List Nat → List Char
  b64decode : List Char → Option (List Nat)
  aeadEnc : List Nat → List Nat → List Char → List Nat
  aeadDec : List Nat → List Nat → List Nat → Option (List Char)

/-- `VoxProvider::encrypt_if_needed` (provider.rs lines 174-194): without
a key the plaintext is stored as-is; with a key the stored value is
`"enc:v1:" ++ base64(nonce) ++ "/" ++ base64(ciphertext)` for the fresh
`nonce`. -/
def encryptIfNeeded (ctx : CryptoCtx) (key? : Option (List Nat))
    (nonce : List Nat) (plaintext : List Char) : Except String (List Char) :=
  match key? with
  | none => Except.ok plaintext
  | some k =>
      Except.ok (ENC_PREFIX ++ (ctx.b64encode nonce ++
        '/' :: ctx.b64encode (ctx.aeadEnc k nonce plaintext)))

/-- Rust's `str::split_once`: split at the first occurrence of `c`. -/
def splitOnce : List Char → Char → Option (List Char × List Char)
  | [], _ => none
  | x :: xs, c =>
      if x = c then some ([], xs)
      else (splitOnce xs c).map (fun p => (x :: p.1, p.2))

/-- `VoxProvider::decrypt_if_needed` (provider.rs lines 198-230): values
without the `enc:v1:` prefix are returned as-is; with the prefix, a key
must be configured, the payload splits at the first `/`, both halves are
base64-decoded, and the value is AEAD-decrypted.  `Nonce::from_slice`
panics unless the nonce is 12 bytes; the panic is modelled as an error. -/
def decryptIfNeeded (ctx : CryptoCtx) (key? : Option (List Nat))
    (stored : List Char) : Except String (List Char) :=
  if ¬ ENC_PREFIX.isPrefixOf stored then Except.ok stored
  else
    match key? with
    | none => Except.error
        "Encrypted key material found but no encryption key configured"
    | some k =>
        match splitOnce (stored.drop ENC_PREFIX.length) '/' with
        | none => Except.error "Malformed encrypted value: missing separator"
        | some (nonce_b64, ct_b64) =>
            match ctx.b64decode nonce_b64 with
            | none => Except.error "Failed to decode nonce"
            | some nonce_bytes =>
                match ctx.b64decode ct_b64 with
                | none => Except.error "Failed to decode ciphertext"
                | some ciphertext =>
                    if nonce_bytes.length = 12 then
                      match ctx.aeadDec k nonce_bytes ciphertext with
                      | none => Except.error "Failed to decrypt key material"
                      | some pt => Except.ok pt
                    else Except.error
                      "Nonce::from_slice panics on non-12-byte nonce"

/-- A concrete, executable crypto context for evaluating the model: a
hex-pair byte-to-character code (alphabet starting at `'0'`, so it never
produces `'/'`) and a key-checking AEAD. -/
def toyB64decode : List Char → Option (List Nat)
  | [] => some []
  | [_] => none
  | a :: b :: rest =>
      (toyB64decode rest).map
        (fun bs => ((a.toNat - 48) * 16 + (b.toNat - 48)) :: bs)

def toyCtx : CryptoCtx :=
  { b64encode := fun bs => bs.flatMap
      (fun b => [Char.ofNat (48 + b / 16 % 16), Char.ofNat (48 + b % 16)])
    b64decode := toyB64decode
    aeadEnc := fun k _ pt => k ++ pt.map Char.toNat
    aeadDec := fun k _ ct =>
      if ct.take 32 = k then some ((ct.drop 32).map Char.ofNat) else none }

/-- Counterexample to claim C8 as stated: a plaintext value that itself
begins with `"enc:v1:"`, stored without an encryption key, is stored
verbatim — but reading it back fails (with or without a key configured),
so "for every string value" the claim is false. -/
theorem encrypt_at_rest_counterexample :
    encryptIfNeeded toyCtx none [0] (ENC_PREFIX ++ ['x']) =
      Except.ok (ENC_PREFIX ++ ['x']) ∧
    decryptIfNeeded toyCtx none (ENC_PREFIX ++ ['x']) =
      Except.error
        "Encrypted key material found but no encryption key configured" := by
  exact ⟨rfl, rfl⟩

lemma splitOnce_append (r : List Char) :
    ∀ l : List Char, '/' ∉ l → splitOnce (l ++ '/' :: r) '/' = some (l, r) := by
  intro l
  induction l with
  | nil => intro _; simp [splitOnce]
  | cons x xs ih =>
      intro hx
      have hxne : x ≠ '/' := fun h => hx (h ▸ List.mem_cons_self x xs)
      simp only [List.cons_append, splitOnce, List.append_eq, if_neg hxne]
      rw [ih (fun h => hx (List.mem_cons_of_mem x h))]
      rfl

lemma enc_prefix_isPrefixOf (rest : List Char) :
    ENC_PREFIX.isPrefixOf (ENC_PREFIX ++ rest) = true :=
  List.isPrefixOf_iff_prefix.mpr (List.prefix_append ENC_PREFIX rest)

/-- Claim C8 (amended): for every value not itself beginning with
`"enc:v1:"` — (1) stored without a key it is stored verbatim and (2)
reads back identically whether or not a key is configured; (3) stored
with a key it is written in the `enc:v1:` envelope form; (4) the envelope
fails to read back with no key configured; (5) whenever the base64 image
of the 12-byte nonce contains no `'/'` and base64 decode inverts encode
on the envelope's two halves, the envelope reads back identically under
the same key; and (6) under a key for which AEAD authentication fails, it
does not read back. -/
theorem encrypt_at_rest_amended (ctx : CryptoCtx) (k k' nonce : List Nat)
    (v : List Char) (hv : ¬ ENC_PREFIX.isPrefixOf v = true) :
    (encryptIfNeeded ctx none nonce v = Except.ok v) ∧
    (∀ key?, decryptIfNeeded ctx key? v = Except.ok v) ∧
    (encryptIfNeeded ctx (some k) nonce v =
      Except.ok (ENC_PREFIX ++ (ctx.b64encode nonce ++
        '/' :: ctx.b64encode (ctx.aeadEnc k nonce v)))) ∧
    (decryptIfNeeded ctx none (ENC_PREFIX ++ (ctx.b64encode nonce ++
        '/' :: ctx.b64encode (ctx.aeadEnc k nonce v))) =
      Except.error
        "Encrypted key material found but no encryption key configured") ∧
    ('/' ∉ ctx.b64encode nonce →
      ctx.b64decode (ctx.b64encode nonce) = some nonce →
      ctx.b64decode (ctx.b64encode (ctx.aeadEnc k nonce v)) =
        some (ctx.aeadEnc k nonce v) →
      nonce.length = 12 →
      ctx.aeadDec k nonce (ctx.aeadEnc k nonce v) = some v →
      decryptIfNeeded ctx (some k) (ENC_PREFIX ++ (ctx.b64encode nonce ++
        '/' :: ctx.b64encode (ctx.aeadEnc k nonce v))) = Except.ok v) ∧
    ('/' ∉ ctx.b64encode nonce →
      ctx.b64decode (ctx.b64encode nonce) = some nonce →
      ctx.b64decode (ctx.b64encode (ctx.aeadEnc k nonce v)) =
        some (ctx.aeadEnc k nonce v) →
      nonce.length = 12 →
      ctx.aeadDec k' nonce (ctx.aeadEnc k nonce v) = none →
      decryptIfNeeded ctx (some k') (ENC_PREFIX ++ (ctx.b64encode nonce ++
        '/' :: ctx.b64encode (ctx.aeadEnc k nonce v))) =
        Except.error "Failed to decrypt key material") := by
  have hdrop : ∀ rest : List Char,
      (ENC_PREFIX ++ rest).drop ENC_PREFIX.length = rest := fun rest => rfl
  refine ⟨rfl, ?_, rfl, ?_, ?_, ?_⟩
  · intro key?
    simp only [decryptIfNeeded]
    rw [if_pos hv]
  · simp only [decryptIfNeeded]
    rw [if_neg (not_not_intro (enc_prefix_isPrefixOf _))]
  · intro hslash hnd hcd h12 hdec
    simp only [decryptIfNeeded]
    rw [if_neg (not_not_intro (enc_prefix_isPrefixOf _))]
    rw [hdrop, splitOnce_append _ _ hslash]
    dsimp only
    rw [hnd, hcd]
    dsimp only
    rw [if_pos h12, hdec]
  · intro hslash hnd hcd h12 hdec
    simp only [decryptIfNeeded]
    rw [if_neg (not_not_intro (enc_prefix_isPrefixOf _))]
    rw [hdrop, splitOnce_append _ _ hslash]
    dsimp only
    rw [hnd, hcd]
    dsimp only
    rw [if_pos h12, hdec]

/-- Witness for the amended C8: with the executable context, key
`replicate 32 1` and nonce `[0..11]`, the value `"hi"` round-trips
through the envelope, and fails under key `replicate 32 2`. -/
theorem encrypt_at_rest_amended_witness :
    (¬ ENC_PREFIX.isPrefixOf ['h', 'i'] = true) ∧
    decryptIfNeeded toyCtx (some (List.replicate 32 1))
      (ENC_PREFIX ++ (toyCtx.b64encode [0, 1, 2, 3, 4, 5, 6, 7, 8, 9, 10, 11] ++
        '/' :: toyCtx.b64encode (toyCtx.aeadEnc (List.replicate 32 1)
          [0, 1, 2, 3, 4, 5, 6, 7, 8, 9, 10, 11] ['h', 'i']))) =
      Except.ok ['h', 'i'] :=
  ⟨by decide,
   (encrypt_at_rest_amended toyCtx (List.replicate 32 1) (List.replicate 32 2)
      [0, 1, 2, 3, 4, 5, 6, 7, 8, 9, 10, 11] ['h', 'i']
      (by decide)).2.2.2.2.1
     (by decide) (by decide) (by decide) (by decide) (by decide)⟩

end Vox
